import Mathlib

/-
  Shallow embedding of the wirc_server messaging/indexing core.

  Sources embedded:
  - src/server.rs      (sync actors: MessageServer, Server)
  - src/async_server.rs (async actors: AsyncMessageServer, AsyncServer)
  - src/error.rs       (Error and its sub-enums)

  Parts of the crate referenced by those files but absent from src/
  (hub.rs, channel.rs, permission.rs, macros.rs, api.rs) are modelled
  from the specification; each such definition carries a doc comment
  starting with "Modelled from the spec:".

  IDs (uuid::Uuid, 128-bit) are modelled as Nat; byte strings as
  List Nat with each entry a byte value.
-/

namespace Wirc

/-! ## Byte encodings of 128-bit ids -/

/-- Little-endian byte expansion of `n` into `k` bytes
(models `u128::to_le_bytes` truncated/padded to `k`). -/
def toLeBytesN : Nat → Nat → List Nat
  | _, 0 => []
  | n, k + 1 => n % 256 :: toLeBytesN (n / 256) k

/-- The 16 little-endian bytes of a 128-bit integer (`u128::to_le_bytes`). -/
def toLeBytes (n : Nat) : List Nat := toLeBytesN n 16

/-- The 16 big-endian bytes of a 128-bit integer (`u128::to_be_bytes`). -/
def toBeBytes (n : Nat) : List Nat := (toLeBytesN n 16).reverse

/-- Little-endian decoding of a byte list (`u128::from_le_bytes`). -/
def fromLeBytes : List Nat → Nat
  | [] => 0
  | b :: bs => b + 256 * fromLeBytes bs

/-- Platform byte order; the async recovery-log write uses
`to_ne_bytes`, which depends on this. -/
inductive Endian
  | le
  | be
deriving DecidableEq

/-- Native-endian byte encoding (`u128::to_ne_bytes`): little-endian
bytes on a little-endian platform, big-endian bytes on a big-endian one. -/
def toNeBytes : Endian → Nat → List Nat
  | .le, n => toLeBytes n
  | .be, n => toBeBytes n

/-- The 16 bytes of `uuid::Uuid::as_bytes()`: for a uuid built from a
`u128` this is the big-endian byte order of that integer. -/
def uuidAsBytes (n : Nat) : List Nat := toBeBytes n

/-! ## Errors (src/error.rs) -/

/-- `DataError` from src/error.rs. -/
inductive DataError
  | WriteFile
  | Deserialize
  | Directory
  | ReadFile
  | Serialize
  | DeleteFailed
deriving DecidableEq

/-- `IndexError` from src/error.rs. -/
inductive IndexError
  | OpenCreateIndex
  | CreateReader
  | CreateWriter
  | GetReader
  | GetWriter
  | ParseQuery
  | Search
  | GetDoc
  | Commit
  | Reload
deriving DecidableEq

/-- `AuthError` from src/error.rs. -/
inductive AuthError
  | NoResponse
  | BadJson
  | OAuthExchangeFailed
  | InvalidToken
  | InvalidSession
  | MalformedIDToken
deriving DecidableEq

/-- Modelled from the spec: the closed set of hub permissions
(permission.rs is absent from src/). -/
inductive HubPermission
  | All
  | ReadChannels
  | WriteChannels
  | Configure
  | ManageChannels
  | Mute
  | Unmute
  | Kick
  | Ban
  | Unban
  | Administrate
deriving DecidableEq

/-- Modelled from the spec: the closed set of channel permissions
(permission.rs is absent from src/; the older sync server refers to the
read permission as `ViewChannel`). -/
inductive ChannelPermission
  | Read
  | Write
  | Manage
deriving DecidableEq

/-- `Error` from src/error.rs (the general error enum). -/
inductive Error
  | Muted
  | Banned
  | HubNotFound
  | ChannelNotFound
  | MissingHubPermission (p : HubPermission)
  | MissingChannelPermission (p : ChannelPermission)
  | NotInHub
  | UserNotFound
  | MemberNotFound
  | MessageNotFound
  | NotAuthenticated
  | GroupNotFound
  | InvalidName
  | UnexpectedServerArg
  | TooBig
  | InvalidText
  | MessageSendFailed
  | Warp
  | CannotAuthenticate
  | AlreadyTyping
  | NotTyping
  | InternalMessageFailed
  | ServerStartFailed
  | Io
  | Auth (e : AuthError)
  | Data (e : DataError)
  | Index (e : IndexError)
deriving DecidableEq

/-! ## Messages and the tantivy index model -/

/-- `channel::Message`: the four fields the index schema serializes
(`id`, `sender`, `created`, `content`); ids as Nat. -/
structure Msg where
  id : Nat
  sender : Nat
  created : Nat
  content : String
deriving DecidableEq

/-- A tantivy `IndexWriter` together with the index segment data it
writes: `committed` are documents durably committed to the index (what a
reloaded reader/searcher sees), `pendingDocs` are documents added since
the last commit (lost on crash). -/
structure TWriter where
  committed : List Msg
  pendingDocs : List Msg
deriving DecidableEq

/-- `IndexWriter::add_document` (the body of `add_message_to_writer`):
appends a document; it becomes visible only after a commit. -/
def TWriter.addDoc (w : TWriter) (m : Msg) : TWriter :=
  { w with pendingDocs := w.pendingDocs ++ [m] }

/-- `IndexWriter::commit`: makes every pending document durable and
visible to reloaded readers. -/
def TWriter.commitW (w : TWriter) : TWriter :=
  { committed := w.committed ++ w.pendingDocs, pendingDocs := [] }

/-- Pointwise update of a map modelled as a function
(`HashMap::insert` at one key). -/
def upd {κ α : Type} [DecidableEq κ] (f : κ → α) (k : κ) (v : α) : κ → α :=
  fun q => if q = k then v else f q

/-- A (hub id, channel id) pair: the key of every per-channel map. -/
abbrev Key := Nat × Nat

/-- State of a message-index server (`MessageServer` /
`AsyncMessageServer`) together with the file-system and store
environment it reads:
  * `endian` — platform byte order (used by `to_ne_bytes` writes);
  * `threshold` — `commit_threshold` / `TANTIVY_COMMIT_THRESHOLD`;
  * `writers` — per-channel index writers (`index_writers`);
  * `pending` — `pending_messages`: (count since last commit, last added id);
  * `openKeys` — the key set of the writer map, for iteration on shutdown;
  * `logs` — bytes of `data/hubs/<hub>/<channel>/log` (None = absent);
  * `diskIndex` — documents persisted in the on-disk index directory;
  * `hubFiles` — whether `data/hubs/<hub>.json` exists;
  * `channelInHub` — whether the hub's `channels` map contains the channel;
  * `msgsAfter` — Modelled from the spec: the store adapter
    `messages_after` (`Channel::async_get_all_messages_from`,
    channel.rs absent from src/): all stored messages newer than the
    given id, in creation order. -/
structure SrvState where
  endian : Endian
  threshold : Nat
  writers : Key → Option TWriter
  pending : Key → Option (Nat × Nat)
  openKeys : List Key
  logs : Key → Option (List Nat)
  diskIndex : Key → List Msg
  hubFiles : Nat → Bool
  channelInHub : Key → Bool
  msgsAfter : Key → Nat → List Msg

namespace MessageServer

/-- `MessageServer::log_last_message` (src/server.rs): replaces the
whole recovery-log file with `message_id.as_bytes()` — the uuid's 16
bytes, i.e. the big-endian order of the 128-bit id. -/
def log_last_message (st : SrvState) (key : Key) (messageId : Nat) : SrvState :=
  { st with logs := upd st.logs key (some (uuidAsBytes messageId)) }

/-- `MessageServer::setup_index` (src/server.rs): creates the index
directory, opens or creates the index from disk and installs a fresh
reader and writer. It performs no recovery-log read and no replay.
Environmental failures (directory creation, mmap) are modelled as
succeeding. -/
def setup_index (st : SrvState) (key : Key) : SrvState :=
  { st with
    writers := upd st.writers key (some { committed := st.diskIndex key, pendingDocs := [] })
    openKeys := if key ∈ st.openKeys then st.openKeys else key :: st.openKeys }

/-- `get_writer`: runs `setup_index` when the key has no writer yet. -/
def ensure_index (st : SrvState) (key : Key) : SrvState :=
  match st.writers key with
  | some _ => st
  | none => setup_index st key

/-- Handler of `NewMessageForIndex` for `MessageServer` (src/server.rs):
add the document; if a pending entry exists and its count has reached
`commit_threshold`, commit, write the recovery log and reset the count,
otherwise just bump the count; always record the new last id.
`commit` is modelled as succeeding. -/
def handle_new_message (st : SrvState) (key : Key) (m : Msg) :
    SrvState × Except Error Unit :=
  let st0 := ensure_index st key
  match st0.writers key with
  | none => (st0, .error (.Data .Directory))
  | some w =>
    let w1 := w.addDoc m
    let stw := { st0 with writers := upd st0.writers key (some w1) }
    match stw.pending key with
    | some (p, _) =>
      if stw.threshold ≤ p then
        let w2 := w1.commitW
        let st2 := { stw with
          writers := upd stw.writers key (some w2)
          diskIndex := upd stw.diskIndex key w2.committed }
        let st3 := log_last_message st2 key m.id
        ({ st3 with pending := upd st3.pending key (some (0, m.id)) }, .ok ())
      else
        ({ stw with pending := upd stw.pending key (some (p + 1, m.id)) }, .ok ())
    | none =>
      ({ stw with pending := upd stw.pending key (some (1, m.id)) }, .ok ())

/-- Applies `handle_new_message` to each message in turn, keeping only
the state (every add in this model returns Ok, matching a run of
successful adds). -/
def addAll (st : SrvState) (key : Key) (msgs : List Msg) : SrvState :=
  msgs.foldl (fun s mm => (handle_new_message s key mm).1) st

/-- The id of the last message of the list, or `x` when the list is
empty (the value the pending entry's id component reaches after a run
of adds). -/
def lastIdOr (msgs : List Msg) (x : Nat) : Nat :=
  match msgs.getLast? with
  | some mm => mm.id
  | none => x

/-- Handler of `SearchMessageIndex` for `MessageServer` (src/server.rs):
if the pending count is non-zero, commit the writer and write the
recovery log with the last pending id, then reset the pending entry to
count 0; finally run the query on a reloaded searcher and return the
ids of the top `limit` matching documents. The parsed tantivy query is
modelled as the match predicate `q`; scoring order is the index order. -/
def handle_search (st : SrvState) (key : Key) (q : Msg → Bool) (limit : Nat) :
    SrvState × Except Error (List Nat) :=
  let st1 :=
    match st.pending key with
    | some (p, mid) =>
      let stc :=
        if p ≠ 0 then
          let sti := ensure_index st key
          match sti.writers key with
          | some w =>
            let w2 := w.commitW
            log_last_message
              { sti with
                writers := upd sti.writers key (some w2)
                diskIndex := upd sti.diskIndex key w2.committed }
              key mid
          | none => sti
        else st
      { stc with pending := upd stc.pending key (some (0, mid)) }
    | none => st
  let st2 := ensure_index st1 key
  match st2.writers key with
  | none => (st2, .error (.Data .Directory))
  | some w => (st2, .ok (((w.committed.filter q).map Msg.id).take limit))

/-- `Actor::stopping` for `MessageServer` (src/server.rs): for every
open index, commit the writer; then, when a pending entry exists for
that key, write the recovery log with its last added id. -/
def stopping (st : SrvState) : SrvState :=
  st.openKeys.foldl
    (fun s key =>
      match s.writers key with
      | none => s
      | some w =>
        let w2 := w.commitW
        let s2 := { s with
          writers := upd s.writers key (some w2)
          diskIndex := upd s.diskIndex key w2.committed }
        match s2.pending key with
        | some (_, lastId) => log_last_message s2 key lastId
        | none => s2)
    st

end MessageServer

namespace AsyncMessageServer

/-- `AsyncMessageServer::log_last_message` (src/async_server.rs):
`tokio::fs::write` replaces the whole recovery-log file with
`message_id.as_u128().to_ne_bytes()` — 16 bytes in the platform's
native byte order. -/
def log_last_message (st : SrvState) (key : Key) (messageId : Nat) : SrvState :=
  { st with logs := upd st.logs key (some (toNeBytes st.endian messageId)) }

/-- `AsyncMessageServer::log_if_nologs` (src/async_server.rs): opens the
recovery-log file with `create_new(true)`, which fails with an io error
(`Error::Io`) whenever the file already exists; otherwise creates it
and writes the id's native-endian bytes. -/
def log_if_nologs (st : SrvState) (key : Key) (messageId : Nat) :
    SrvState × Except Error Unit :=
  match st.logs key with
  | some _ => (st, .error .Io)
  | none =>
    ({ st with logs := upd st.logs key (some (toNeBytes st.endian messageId)) }, .ok ())

/-- `AsyncMessageServer::setup_index` (src/async_server.rs): open or
create the on-disk index and a writer/reader; when the recovery-log
file exists, read its first 16 bytes (`read_exact`, an io error when
the file is shorter), decode them little-endian, load the hub file
(`Error::HubNotFound` when absent), and when the hub has the channel,
replay every stored message after the decoded id through
`add_message_to_writer`, commit, and — when at least one message was
replayed — rewrite the recovery log with the last replayed id (in
native byte order). Environmental failures of directory creation,
mmap, writer creation, commit and the log write are modelled as
succeeding. -/
def setup_index (st : SrvState) (key : Key) : SrvState × Except Error Unit :=
  let w0 : TWriter := { committed := st.diskIndex key, pendingDocs := [] }
  let install := fun (s : SrvState) (w : TWriter) =>
    { s with
      writers := upd s.writers key (some w)
      openKeys := if key ∈ s.openKeys then s.openKeys else key :: s.openKeys }
  match st.logs key with
  | none => (install st w0, .ok ())
  | some bs =>
    if 16 ≤ bs.length then
      let lastId := fromLeBytes (bs.take 16)
      if st.hubFiles key.1 then
        if st.channelInHub key then
          let msgs := st.msgsAfter key lastId
          let w1 := (msgs.foldl TWriter.addDoc w0).commitW
          let st1 := { st with diskIndex := upd st.diskIndex key w1.committed }
          let st2 :=
            match msgs.getLast? with
            | some lastM => log_last_message st1 key lastM.id
            | none => st1
          (install st2 w1, .ok ())
        else (install st w0, .ok ())
      else (st, .error .HubNotFound)
    else (st, .error .Io)

/-- `get_writer`: runs `setup_index` when the key has no writer yet;
setup errors propagate. -/
def ensure_index (st : SrvState) (key : Key) : SrvState × Except Error Unit :=
  match st.writers key with
  | some _ => (st, .ok ())
  | none => setup_index st key

/-- Handler of `NewMessageForIndex` for `AsyncMessageServer`
(src/async_server.rs): add the document; when a pending entry exists
and its count has reached `TANTIVY_COMMIT_THRESHOLD`, commit, write the
recovery log and reset the count; otherwise call `log_if_nologs`, whose
error aborts the handler after the document was already added and
before the pending entry is updated. `commit` is modelled as
succeeding. -/
def handle_new_message (st : SrvState) (key : Key) (m : Msg) :
    SrvState × Except Error Unit :=
  match ensure_index st key with
  | (st0, .error e) => (st0, .error e)
  | (st0, .ok _) =>
    match st0.writers key with
    | none => (st0, .error (.Index .GetWriter))
    | some w =>
      let w1 := w.addDoc m
      let stw := { st0 with writers := upd st0.writers key (some w1) }
      match stw.pending key with
      | some (p, _) =>
        if stw.threshold ≤ p then
          let w2 := w1.commitW
          let st2 := { stw with
            writers := upd stw.writers key (some w2)
            diskIndex := upd stw.diskIndex key w2.committed }
          let st3 := log_last_message st2 key m.id
          ({ st3 with pending := upd st3.pending key (some (0, m.id)) }, .ok ())
        else
          match log_if_nologs stw key m.id with
          | (stl, .error e) => (stl, .error e)
          | (stl, .ok _) =>
            ({ stl with pending := upd stl.pending key (some (p + 1, m.id)) }, .ok ())
      | none =>
        match log_if_nologs stw key m.id with
        | (stl, .error e) => (stl, .error e)
        | (stl, .ok _) =>
          ({ stl with pending := upd stl.pending key (some (1, m.id)) }, .ok ())

/-- One step of a run of adds through the async handler: the state
threads through every call (mutations before an error persist), and
the flag stays true only while every add so far returned Ok. -/
def addStep (key : Key) (acc : SrvState × Bool) (m : Msg) : SrvState × Bool :=
  match handle_new_message acc.1 key m with
  | (st2, .ok _) => (st2, acc.2)
  | (st2, .error _) => (st2, false)

/-- A run of adds through the async handler; the Bool is true iff every
add in the run returned Ok (a run of successful adds). -/
def addAllOk (st : SrvState) (key : Key) (msgs : List Msg) : SrvState × Bool :=
  msgs.foldl (addStep key) (st, true)

/-- Handler of `SearchMessageIndex` for `AsyncMessageServer`
(src/async_server.rs): when the pending count is non-zero, commit the
writer (result ignored), write the recovery log with the last pending
id and reset the pending entry; then run the query on a reloaded
searcher and return the ids of the top `limit` matching documents. -/
def handle_search (st : SrvState) (key : Key) (q : Msg → Bool) (limit : Nat) :
    SrvState × Except Error (List Nat) :=
  let step1 : SrvState × Except Error Unit :=
    match st.pending key with
    | some (p, mid) =>
      if p ≠ 0 then
        match ensure_index st key with
        | (sti, .error e) => (sti, .error e)
        | (sti, .ok _) =>
          match sti.writers key with
          | some w =>
            let w2 := w.commitW
            let stc := log_last_message
              { sti with
                writers := upd sti.writers key (some w2)
                diskIndex := upd sti.diskIndex key w2.committed }
              key mid
            ({ stc with pending := upd stc.pending key (some (0, mid)) }, .ok ())
          | none => (sti, .error (.Index .GetWriter))
      else (st, .ok ())
    | none => (st, .ok ())
  match step1 with
  | (st1, .error e) => (st1, .error e)
  | (st1, .ok _) =>
    match ensure_index st1 key with
    | (st2, .error e) => (st2, .error e)
    | (st2, .ok _) =>
      match st2.writers key with
      | none => (st2, .error (.Index .GetReader))
      | some w => (st2, .ok (((w.committed.filter q).map Msg.id).take limit))

/-- `Actor::stopping` for `AsyncMessageServer` (src/async_server.rs):
for every open index, commit the writer. The source then evaluates
`let _ = Self::log_last_message(&hc_id.0, &hc_id.1, id);` — but
`log_last_message` is an `async fn`, and the future it returns is
dropped without being awaited, so the recovery-log write never
executes; only the commits happen. -/
def stopping (st : SrvState) : SrvState :=
  st.openKeys.foldl
    (fun s key =>
      match s.writers key with
      | none => s
      | some w =>
        let w2 := w.commitW
        { s with
          writers := upd s.writers key (some w2)
          diskIndex := upd s.diskIndex key w2.committed })
    st

end AsyncMessageServer

/-! ## Hubs, members and the permission evaluator -/

/-- Modelled from the spec: a hub member with tri-state permission
settings (hub.rs is absent from src/). `none` = unset. -/
structure Member where
  userId : Nat
  hubPerms : HubPermission → Option Bool
  channelPerms : Nat → ChannelPermission → Option Bool

/-- Modelled from the spec: a loaded hub snapshot (hub.rs is absent
from src/). `members` maps user ids to members; `channels` tells which
channel ids exist; `bans` and `mutes` are user-id sets. -/
structure Hub where
  owner : Nat
  members : Nat → Option Member
  channels : Nat → Bool
  bans : Nat → Bool
  mutes : Nat → Bool

/-- The hub-wide permission corresponding to a channel permission. -/
def chanToHubPerm : ChannelPermission → HubPermission
  | .Read => .ReadChannels
  | .Write => .WriteChannels
  | .Manage => .ManageChannels

/-- Modelled from the spec: the permission evaluator of §4.A
(permission.rs and the member methods of hub.rs are absent from src/).
Muted status denies `Write` irrespective of other grants; then, first
match wins: owner → allow, banned → deny, channel-specific tri-state,
hub-wide tri-state, `All` grant, otherwise deny. -/
def hasChannelPermission (hub : Hub) (mem : Member) (chanId : Nat)
    (p : ChannelPermission) : Bool :=
  if hub.mutes mem.userId && p == .Write then false
  else if hub.owner == mem.userId then true
  else if hub.bans mem.userId then false
  else
    match mem.channelPerms chanId p with
    | some b => b
    | none =>
      match mem.hubPerms (chanToHubPerm p) with
      | some b => b
      | none => mem.hubPerms .All == some true

/-- Modelled from the spec: `Hub::get_channel` as used by the
`search_messages` HTTP handler (hub.rs is absent from src/): the caller
must be a member — non-members get the distinct member-not-found
error — and must hold channel `Read`; the channel must exist. -/
def Hub.get_channel (hub : Hub) (uid chanId : Nat) : Except Error Unit :=
  match hub.members uid with
  | none => .error .MemberNotFound
  | some mem =>
    if hasChannelPermission hub mem chanId .Read then
      if hub.channels chanId then .ok () else .error .ChannelNotFound
    else .error (.MissingChannelPermission .Read)

/-! ## Subscription registry -/

/-- The three subscription maps of `Server` / `AsyncServer`: sessions
(`Recipient<ServerMessage>` handles) are Nats; subscriber sets
(`HashSet`) are characteristic functions; `sessions` is the forward
map `subscribed` from a session to its (channel-key set, hub-id set),
absent entries being `none`. -/
structure Registry where
  channelSubs : Key → Nat → Bool
  hubSubs : Nat → Nat → Bool
  sessions : Nat → Option ((Key → Bool) × (Nat → Bool))

/-- The empty registry (`Server::new` / `AsyncServer::new`). -/
def Registry.init : Registry :=
  { channelSubs := fun _ _ => false
    hubSubs := fun _ _ => false
    sessions := fun _ => none }

/-- The mutation of a hub subscription: `subscribed.entry(addr)
.or_default()` gains the hub id, `subscribed_hubs.entry(hub_id)
.or_default()` gains the session. -/
def Registry.subHub (r : Registry) (sess hubId : Nat) : Registry :=
  let cur := (r.sessions sess).getD (fun _ => false, fun _ => false)
  { r with
    sessions := fun x =>
      if x = sess then some (cur.1, fun h => if h = hubId then true else cur.2 h)
      else r.sessions x
    hubSubs := fun h s =>
      if h = hubId ∧ s = sess then true else r.hubSubs h s }

/-- The mutation of a channel subscription (forward and reverse edge). -/
def Registry.subChan (r : Registry) (sess : Nat) (key : Key) : Registry :=
  let cur := (r.sessions sess).getD (fun _ => false, fun _ => false)
  { r with
    sessions := fun x =>
      if x = sess then some ((fun k => if k = key then true else cur.1 k), cur.2)
      else r.sessions x
    channelSubs := fun k s =>
      if k = key ∧ s = sess then true else r.channelSubs k s }

/-- `UnsubscribeHub` (src/server.rs, src/async_server.rs): remove the
hub from the session's forward entry when one exists, and the session
from the hub's subscriber set; missing edges are tolerated. -/
def Registry.unsubHub (r : Registry) (sess hubId : Nat) : Registry :=
  { r with
    sessions := fun x =>
      if x = sess then
        (r.sessions x).map (fun p => (p.1, fun h => if h = hubId then false else p.2 h))
      else r.sessions x
    hubSubs := fun h s =>
      if h = hubId ∧ s = sess then false else r.hubSubs h s }

/-- `UnsubscribeChannel`: symmetric to `unsubHub`. -/
def Registry.unsubChan (r : Registry) (sess : Nat) (key : Key) : Registry :=
  { r with
    sessions := fun x =>
      if x = sess then
        (r.sessions x).map (fun p => ((fun k => if k = key then false else p.1 k), p.2))
      else r.sessions x
    channelSubs := fun k s =>
      if k = key ∧ s = sess then false else r.channelSubs k s }

/-- `Disconnect` (src/server.rs, src/async_server.rs): when the session
has a forward entry, remove the session from the subscriber set of
every channel and hub listed there; in every case remove the forward
entry itself. -/
def Registry.disconnect (r : Registry) (sess : Nat) : Registry :=
  match r.sessions sess with
  | some p =>
    { channelSubs := fun k s => if p.1 k ∧ s = sess then false else r.channelSubs k s
      hubSubs := fun h s => if p.2 h ∧ s = sess then false else r.hubSubs h s
      sessions := fun x => if x = sess then none else r.sessions x }
  | none =>
    { r with sessions := fun x => if x = sess then none else r.sessions x }

/-! ## Events and the session command handlers -/

/-- `ServerMessage` (src/server.rs): the events fanned out to client
sessions (the fields the claims rely on). -/
inductive ServerMsg
  | NewMessage (hubId chanId : Nat) (m : Msg)
  | TypingStart (userId hubId chanId : Nat)
  | TypingStop (userId hubId chanId : Nat)
  | HubUpdated (hubId : Nat)
deriving DecidableEq

/-- `send_channel` (src/server.rs, src/async_server.rs): delivers the
event to exactly the sessions in the channel's subscriber set. -/
def sendChannel (r : Registry) (key : Key) (msg : ServerMsg) :
    Nat → Option ServerMsg :=
  fun s => if r.channelSubs key s then some msg else none

/-- The delivery map of a command that fans nothing out. -/
def noDelivery : Nat → Option ServerMsg := fun _ => none

/-- The hub store: `Hub::load` returns the hub snapshot, or
`Error::HubNotFound` when the hub file is absent. -/
abbrev HubEnv := Nat → Option Hub

namespace AsyncServer

/-- Handler of `client_command::SubscribeHub` (src/async_server.rs):
load the hub, require membership (`hub.get_member`, whose non-member
error is the distinct member-not-found error, hub.rs being absent from
src/), then add the forward and reverse edges. -/
def subscribe_hub (hubs : HubEnv) (r : Registry) (uid hubId sess : Nat) :
    Registry × Except Error Unit :=
  match hubs hubId with
  | none => (r, .error .HubNotFound)
  | some hub =>
    match hub.members uid with
    | none => (r, .error .MemberNotFound)
    | some _ => (r.subHub sess hubId, .ok ())

/-- Handler of `client_command::SubscribeChannel` (src/async_server.rs):
load the hub, require membership (non-members get
`Error::MemberNotFound`), require channel `Read` via
`check_permission!` (macros.rs is absent from src/; modelled from the
spec as failing with `MissingChannelPermission`), then add both edges. -/
def subscribe_channel (hubs : HubEnv) (r : Registry) (uid hubId chanId sess : Nat) :
    Registry × Except Error Unit :=
  match hubs hubId with
  | none => (r, .error .HubNotFound)
  | some hub =>
    match hub.members uid with
    | none => (r, .error .MemberNotFound)
    | some mem =>
      if hasChannelPermission hub mem chanId .Read then
        (r.subChan sess (hubId, chanId), .ok ())
      else (r, .error (.MissingChannelPermission .Read))

/-- Handler of `client_command::StartTyping` (src/async_server.rs):
load the hub, require membership (`Error::MemberNotFound`), require
channel `Write` via `check_permission!`, then fan `TypingStart` out to
the channel's subscribers; nothing is persisted and the registry is
not touched. -/
def start_typing (hubs : HubEnv) (r : Registry) (uid hubId chanId : Nat) :
    Except Error Unit × (Nat → Option ServerMsg) :=
  match hubs hubId with
  | none => (.error .HubNotFound, noDelivery)
  | some hub =>
    match hub.members uid with
    | none => (.error .MemberNotFound, noDelivery)
    | some mem =>
      if hasChannelPermission hub mem chanId .Write then
        (.ok (), sendChannel r (hubId, chanId) (.TypingStart uid hubId chanId))
      else (.error (.MissingChannelPermission .Write), noDelivery)

/-- Handler of `client_command::StopTyping` (src/async_server.rs):
identical to `start_typing` but fanning out `TypingStop`. -/
def stop_typing (hubs : HubEnv) (r : Registry) (uid hubId chanId : Nat) :
    Except Error Unit × (Nat → Option ServerMsg) :=
  match hubs hubId with
  | none => (.error .HubNotFound, noDelivery)
  | some hub =>
    match hub.members uid with
    | none => (.error .MemberNotFound, noDelivery)
    | some mem =>
      if hasChannelPermission hub mem chanId .Write then
        (.ok (), sendChannel r (hubId, chanId) (.TypingStop uid hubId chanId))
      else (.error (.MissingChannelPermission .Write), noDelivery)

/-- Handler of `client_command::SendMessage` (src/async_server.rs):
load the hub, require membership (`Error::MemberNotFound`), require
channel `Write`, then persist via `api::send_message` (api.rs is absent
from src/; modelled from the spec as the store assigning and returning
the message, here passed in as `assigned`) and fan `NewMessage` out.
The third component records what was persisted to the store. -/
def send_message (hubs : HubEnv) (r : Registry) (uid hubId chanId : Nat)
    (assigned : Msg) :
    Except Error Nat × (Nat → Option ServerMsg) × Option Msg :=
  match hubs hubId with
  | none => (.error .HubNotFound, noDelivery, none)
  | some hub =>
    match hub.members uid with
    | none => (.error .MemberNotFound, noDelivery, none)
    | some mem =>
      if hasChannelPermission hub mem chanId .Write then
        (.ok assigned.id,
         sendChannel r (hubId, chanId) (.NewMessage hubId chanId assigned),
         some assigned)
      else (.error (.MissingChannelPermission .Write), noDelivery, none)

end AsyncServer

namespace SyncServer

/-- `ClientCommand::StopTyping` for the sync `Server` (src/server.rs
lines 521-531): the handler loads no hub, checks no membership and no
permission; it simply fans `TypingStop` out to the channel's
subscribers. The constructor arguments follow the source's positional
order there, `TypingStop(hub_id, channel_id, user_id)` (the async
server fills the same positions with user, hub, channel). -/
def stop_typing (r : Registry) (uid hubId chanId : Nat) :
    Nat → Option ServerMsg :=
  sendChannel r (hubId, chanId) (.TypingStop hubId chanId uid)

end SyncServer

/-- The `search_messages` HTTP route (src/httpapi.rs): loads the hub
(`HubNotFound` when absent) and gates on `Hub::get_channel` before
forwarding the query to the message server. -/
def search_messages_gate (hubs : HubEnv) (uid hubId chanId : Nat) :
    Except Error Unit :=
  match hubs hubId with
  | none => .error .HubNotFound
  | some hub => hub.get_channel uid chanId

/-- A registry-mutating client command, as dispatched by the
`Server` / `AsyncServer` handlers. -/
inductive ClientCmd
  | subscribeHub (uid hubId sess : Nat)
  | unsubscribeHub (hubId sess : Nat)
  | subscribeChannel (uid hubId chanId sess : Nat)
  | unsubscribeChannel (hubId chanId sess : Nat)
  | disconnect (sess : Nat)

/-- Applies one client command to the registry through the handlers
(a failed subscribe leaves the registry unchanged; unsubscribe and
disconnect never fail). -/
def applyCmd (hubs : HubEnv) (r : Registry) : ClientCmd → Registry
  | .subscribeHub uid hubId sess => (AsyncServer.subscribe_hub hubs r uid hubId sess).1
  | .unsubscribeHub hubId sess => r.unsubHub sess hubId
  | .subscribeChannel uid hubId chanId sess =>
    (AsyncServer.subscribe_channel hubs r uid hubId chanId sess).1
  | .unsubscribeChannel hubId chanId sess => r.unsubChan sess (hubId, chanId)
  | .disconnect sess => r.disconnect sess

/-- Applies a sequence of client commands from left to right. -/
def applyCmds (hubs : HubEnv) (r : Registry) (cmds : List ClientCmd) : Registry :=
  cmds.foldl (applyCmd hubs) r

/-- The forward channel edge (session, key) as a Bool. -/
def fwdChan (r : Registry) (sess : Nat) (key : Key) : Bool :=
  match r.sessions sess with
  | some p => p.1 key
  | none => false

/-- The forward hub edge (session, hub) as a Bool. -/
def fwdHub (r : Registry) (sess hubId : Nat) : Bool :=
  match r.sessions sess with
  | some p => p.2 hubId
  | none => false

/-- Bidirectional consistency of the registry: a forward edge exists
iff the corresponding reverse edge exists, for channels and hubs. -/
def Inv (r : Registry) : Prop :=
  (∀ sess key, fwdChan r sess key = r.channelSubs key sess) ∧
  (∀ sess hubId, fwdHub r sess hubId = r.hubSubs hubId sess)

/-- No entry in any of the three maps references the session. -/
def noRefs (sess : Nat) (r : Registry) : Prop :=
  r.sessions sess = none ∧
  (∀ key, r.channelSubs key sess = false) ∧
  (∀ hubId, r.hubSubs hubId sess = false)

/-! ## Concrete fixtures for witnesses and counterexamples -/

/-- A message used in concrete runs. -/
def mA : Msg := { id := 1, sender := 1, created := 0, content := "alpha" }

/-- A second message used in concrete runs. -/
def mB : Msg := { id := 2, sender := 1, created := 1, content := "beta" }

/-- A message newer than the logged id in the recovery scenarios. -/
def m4 : Msg := { id := 4, sender := 1, created := 4, content := "delta" }

/-- An empty base server state on a little-endian platform with the
default commit threshold 10. -/
def st0 : SrvState :=
  { endian := .le
    threshold := 10
    writers := fun _ => none
    pending := fun _ => none
    openKeys := []
    logs := fun _ => none
    diskIndex := fun _ => []
    hubFiles := fun _ => false
    channelInHub := fun _ => false
    msgsAfter := fun _ _ => [] }

/-- Base state with commit threshold 1 (for the threshold run). -/
def stW : SrvState := { st0 with threshold := 1 }

/-- Base state with commit threshold 0 (for the threshold-0
counterexample). -/
def stZ : SrvState := { st0 with threshold := 0 }

/-- State with an open empty writer (for the search run). -/
def stS : SrvState :=
  { st0 with
    writers := upd st0.writers (1, 1) (some { committed := [], pendingDocs := [] })
    openKeys := [(1, 1)] }

/-- State with an open writer, one pending message recorded as
(count 1, id 7) and an existing recovery log (for the async first-add
bootstrap error). -/
def stC10 : SrvState :=
  { st0 with
    writers := upd st0.writers (1, 1) (some { committed := [], pendingDocs := [] })
    openKeys := [(1, 1)]
    pending := upd st0.pending (1, 1) (some (1, 7))
    logs := upd st0.logs (1, 1) (some (toLeBytes 7)) }

/-- State at shutdown: one open index with an uncommitted document,
a pending entry (count 1, last id 42) and a recovery log still holding
id 7. -/
def stC5 : SrvState :=
  { st0 with
    writers := upd st0.writers (1, 1) (some { committed := [], pendingDocs := [mA] })
    openKeys := [(1, 1)]
    pending := upd st0.pending (1, 1) (some (1, 42))
    logs := upd st0.logs (1, 1) (some (toLeBytes 7)) }

/-- Startup state whose recovery log holds id 3 while the store has the
newer message `m4` (for the sync setup counterexample). -/
def stC1 : SrvState :=
  { st0 with
    logs := upd st0.logs (1, 1) (some (toLeBytes 3))
    hubFiles := fun h => h == 1
    channelInHub := fun k => k.1 == 1 && k.2 == 1
    msgsAfter := fun _ after => if after = 3 then [m4] else [] }

/-- Startup state whose on-disk index already contains `mA` while the
store replays `mA` again (for the replay-duplicate counterexample). -/
def stC6 : SrvState :=
  { st0 with
    logs := upd st0.logs (1, 1) (some (toLeBytes 0))
    diskIndex := upd st0.diskIndex (1, 1) [mA]
    hubFiles := fun h => h == 1
    channelInHub := fun k => k.1 == 1 && k.2 == 1
    msgsAfter := fun _ after => if after = 0 then [mA] else [] }

/-- A member of `hubW` holding no explicit permission. -/
def memNoW : Member :=
  { userId := 2, hubPerms := fun _ => none, channelPerms := fun _ _ => none }

/-- A hub owned by user 1, with user 2 a permissionless member and
channel 1 existing; nobody banned or muted. -/
def hubW : Hub :=
  { owner := 1
    members := fun u => if u = 2 then some memNoW else none
    channels := fun c => c == 1
    bans := fun _ => false
    mutes := fun _ => false }

/-- The hub store holding only `hubW` as hub 1. -/
def hubsW : HubEnv := fun h => if h = 1 then some hubW else none

/-- A registry in which session 9 is subscribed to channel (1, 1)
(reverse edge only, which is all `send_channel` consults). -/
def regT : Registry :=
  { channelSubs := fun k s => k.1 == 1 && k.2 == 1 && s == 9
    hubSubs := fun _ _ => false
    sessions := fun _ => none }

/-! ## Byte-encoding lemmas -/

theorem toLeBytesN_length (k : Nat) : ∀ n, (toLeBytesN n k).length = k := by
  induction k with
  | zero => intro n; rfl
  | succ k ih => intro n; simp [toLeBytesN, ih]

theorem fromLeBytes_toLeBytesN (k : Nat) :
    ∀ n, n < 256 ^ k → fromLeBytes (toLeBytesN n k) = n := by
  induction k with
  | zero =>
    intro n hn
    have hz : n = 0 := Nat.lt_one_iff.mp (by simpa using hn)
    subst hz
    rfl
  | succ k ih =>
    intro n hn
    have hdiv : n / 256 < 256 ^ k := by
      rw [Nat.div_lt_iff_lt_mul (by norm_num)]
      calc n < 256 ^ (k + 1) := hn
        _ = 256 ^ k * 256 := by rw [pow_succ]
    simp only [toLeBytesN, fromLeBytes]
    rw [ih _ hdiv, Nat.mod_add_div]

theorem fromLeBytes_toLeBytes {n : Nat} (hn : n < 2 ^ 128) :
    fromLeBytes (toLeBytes n) = n := by
  have h : (256 : Nat) ^ 16 = 2 ^ 128 := by norm_num
  exact fromLeBytes_toLeBytesN 16 n (by rw [h]; exact hn)

theorem upd_same {κ α : Type} [DecidableEq κ] (f : κ → α) (k : κ) (v : α) :
    upd f k v k = v := by
  simp [upd]

/-! ## Claim C4: recovery-log format -/

/-- C4 counterexample: the claim says every recovery-log write encodes
the id little-endian so that little-endian read-back returns the logged
id, independent of platform. The sync `MessageServer::log_last_message`
writes `Uuid::as_bytes()` — the big-endian order — so little-endian
decoding of the bytes it writes for id 1 yields 2^120, not 1; likewise
the async write uses `to_ne_bytes`, which on a big-endian platform also
fails to read back little-endian. -/
theorem C4_counterexample :
    (MessageServer.log_last_message st0 (1, 1) 1).logs (1, 1) = some (uuidAsBytes 1) ∧
    fromLeBytes (uuidAsBytes 1) ≠ 1 ∧
    fromLeBytes (toNeBytes .be 1) ≠ 1 := by
  refine ⟨rfl, by decide, by decide⟩

/-- C4 (amended): every recovery-log write is a whole-file replacement
of exactly 16 bytes; the async path writes the id's native-endian bytes
(which little-endian read-back recovers exactly on little-endian
platforms), and the sync path writes the uuid's big-endian bytes. -/
theorem C4_log_sixteen_bytes (st : SrvState) (key : Key) (n : Nat)
    (hn : n < 2 ^ 128) :
    (AsyncMessageServer.log_last_message st key n).logs key =
      some (toNeBytes st.endian n) ∧
    (toNeBytes st.endian n).length = 16 ∧
    (st.endian = .le → fromLeBytes (toNeBytes st.endian n) = n) ∧
    (MessageServer.log_last_message st key n).logs key = some (uuidAsBytes n) ∧
    (uuidAsBytes n).length = 16 := by
  refine ⟨?_, ?_, ?_, ?_, ?_⟩
  · simp [AsyncMessageServer.log_last_message, upd]
  · cases st.endian <;>
      simp [toNeBytes, toLeBytes, toBeBytes, toLeBytesN_length]
  · intro h
    rw [h]
    exact fromLeBytes_toLeBytes hn
  · simp [MessageServer.log_last_message, upd]
  · simp [uuidAsBytes, toBeBytes, toLeBytesN_length]

/-- Witness for C4_log_sixteen_bytes at id 5 in the base state. -/
theorem C4_log_sixteen_bytes_witness :
    (5 : Nat) < 2 ^ 128 ∧
    ((AsyncMessageServer.log_last_message st0 (1, 1) 5).logs (1, 1) =
        some (toNeBytes st0.endian 5) ∧
      (toNeBytes st0.endian 5).length = 16 ∧
      (st0.endian = .le → fromLeBytes (toNeBytes st0.endian 5) = 5) ∧
      (MessageServer.log_last_message st0 (1, 1) 5).logs (1, 1) =
        some (uuidAsBytes 5) ∧
      (uuidAsBytes 5).length = 16) :=
  ⟨by norm_num, C4_log_sixteen_bytes st0 (1, 1) 5 (by norm_num)⟩

/-! ## Claim C10: async first-add bootstrap io error -/

/-- C10: in the async message server, an add to a channel whose
recovery-log file already exists and whose prior pending count is below
the commit threshold returns `Error::Io` (`log_if_nologs` opens the log
with `create_new`, which fails on an existing file) even though the
document was already appended to the writer; the pending entry and the
log file are left unchanged. -/
theorem C10_bootstrap_io_error (st : SrvState) (key : Key) (m : Msg)
    (w : TWriter) (p lastId : Nat) (bs : List Nat)
    (hw : st.writers key = some w)
    (hp : st.pending key = some (p, lastId))
    (hlt : p < st.threshold)
    (hlog : st.logs key = some bs) :
    (AsyncMessageServer.handle_new_message st key m).2 = .error .Io ∧
    (AsyncMessageServer.handle_new_message st key m).1.writers key =
      some (w.addDoc m) ∧
    (AsyncMessageServer.handle_new_message st key m).1.pending key =
      some (p, lastId) ∧
    (AsyncMessageServer.handle_new_message st key m).1.logs key = some bs := by
  simp only [AsyncMessageServer.handle_new_message, AsyncMessageServer.ensure_index,
    AsyncMessageServer.log_if_nologs, hw, hp, hlog, upd_same]
  rw [if_neg (by simpa using Nat.not_le.mpr hlt)]
  simp [hw, hp, hlog, upd_same]

/-- Witness for C10_bootstrap_io_error on a concrete state. -/
theorem C10_bootstrap_io_error_witness :
    stC10.writers (1, 1) = some { committed := [], pendingDocs := [] } ∧
    stC10.pending (1, 1) = some (1, 7) ∧
    1 < stC10.threshold ∧
    stC10.logs (1, 1) = some (toLeBytes 7) ∧
    ((AsyncMessageServer.handle_new_message stC10 (1, 1) mA).2 = .error .Io ∧
      (AsyncMessageServer.handle_new_message stC10 (1, 1) mA).1.writers (1, 1) =
        some (TWriter.addDoc { committed := [], pendingDocs := [] } mA) ∧
      (AsyncMessageServer.handle_new_message stC10 (1, 1) mA).1.pending (1, 1) =
        some (1, 7) ∧
      (AsyncMessageServer.handle_new_message stC10 (1, 1) mA).1.logs (1, 1) =
        some (toLeBytes 7)) :=
  ⟨rfl, rfl, by decide, rfl,
    C10_bootstrap_io_error stC10 (1, 1) mA _ 1 7 _ rfl rfl (by decide) rfl⟩

/-! ## Claim C5: shutdown commit and recovery-log update -/

/-- C5: the claim says shutdown commits each open writer and then
updates the recovery-log file. The async `stopping` does commit, but it
drops the `log_last_message` future without awaiting it, so the log
file keeps its old contents (id 7) instead of the last added id 42; the
sync `stopping` on the same state does write the log. -/
theorem C5_async_shutdown_skips_log :
    (AsyncMessageServer.stopping stC5).writers (1, 1) =
      some { committed := [mA], pendingDocs := [] } ∧
    (AsyncMessageServer.stopping stC5).logs (1, 1) = some (toLeBytes 7) ∧
    (AsyncMessageServer.stopping stC5).logs (1, 1) ≠
      some (toNeBytes stC5.endian 42) ∧
    (MessageServer.stopping stC5).logs (1, 1) = some (uuidAsBytes 42) := by
  refine ⟨by decide, by decide, by decide, by decide⟩

/-! ## Claims C1 and C6: startup recovery replay -/

theorem foldl_addDoc (msgs : List Msg) :
    ∀ w : TWriter, msgs.foldl TWriter.addDoc w =
      { committed := w.committed, pendingDocs := w.pendingDocs ++ msgs } := by
  induction msgs with
  | nil => intro w; simp
  | cons m rest ih =>
    intro w
    simp [List.foldl_cons, ih, TWriter.addDoc]

/-- C1 counterexample: the claim covers both `setup_index`
implementations, but the sync `MessageServer::setup_index` reads no
recovery log and replays nothing: with the log at id 3 and the store
holding the newer message `m4`, the index it sets up is empty and the
log is untouched, so the index does not contain all messages newer than
the old log value. -/
theorem C1_counterexample :
    stC1.logs (1, 1) = some (toLeBytes 3) ∧
    stC1.msgsAfter (1, 1) 3 = [m4] ∧
    (MessageServer.setup_index stC1 (1, 1)).writers (1, 1) =
      some { committed := [], pendingDocs := [] } ∧
    (MessageServer.setup_index stC1 (1, 1)).logs (1, 1) = some (toLeBytes 3) := by
  refine ⟨rfl, by decide, by decide, rfl⟩

theorem async_setup_replay (st : SrvState) (key : Key) (bs : List Nat)
    (hlog : st.logs key = some bs)
    (hlen : 16 ≤ bs.length)
    (hhub : st.hubFiles key.1 = true)
    (hchan : st.channelInHub key = true) :
    (AsyncMessageServer.setup_index st key).2 = .ok () ∧
    (AsyncMessageServer.setup_index st key).1.writers key =
      some { committed :=
               st.diskIndex key ++ st.msgsAfter key (fromLeBytes (bs.take 16)),
             pendingDocs := [] } ∧
    (st.msgsAfter key (fromLeBytes (bs.take 16)) = [] →
      (AsyncMessageServer.setup_index st key).1.logs key = st.logs key) ∧
    (∀ lastM, (st.msgsAfter key (fromLeBytes (bs.take 16))).getLast? = some lastM →
      (AsyncMessageServer.setup_index st key).1.logs key =
        some (toNeBytes st.endian lastM.id)) := by
  simp only [AsyncMessageServer.setup_index, hlog, hhub, hchan, if_pos hlen,
    if_true, foldl_addDoc, TWriter.commitW]
  cases hlast : (st.msgsAfter key (fromLeBytes (List.take 16 bs))).getLast? with
  | none =>
    have hnil : st.msgsAfter key (fromLeBytes (List.take 16 bs)) = [] :=
      List.getLast?_eq_none_iff.mp hlast
    simp [hlast, hnil, upd_same, hlog]
  | some lastM =>
    have hne : st.msgsAfter key (fromLeBytes (List.take 16 bs)) ≠ [] := by
      intro hcontra
      rw [hcontra] at hlast
      simp at hlast
    simp [hlast, hne, upd_same, AsyncMessageServer.log_last_message]

/-- C1 (amended): in the async message server, when the recovery-log
file exists with at least 16 bytes, the hub file exists and the hub has
the channel, `setup_index` decodes the logged id little-endian, fetches
every stored message after it, replays them all into the writer,
commits, and — when at least one message was replayed — rewrites the
recovery log with the last replayed id (in native byte order); the
resulting index holds the on-disk documents plus every replayed
message. The sync `setup_index` performs no such replay. -/
theorem C1_async_setup_replays (st : SrvState) (key : Key) (bs : List Nat)
    (hlog : st.logs key = some bs)
    (hlen : 16 ≤ bs.length)
    (hhub : st.hubFiles key.1 = true)
    (hchan : st.channelInHub key = true) :
    (AsyncMessageServer.setup_index st key).2 = .ok () ∧
    (AsyncMessageServer.setup_index st key).1.writers key =
      some { committed :=
               st.diskIndex key ++ st.msgsAfter key (fromLeBytes (bs.take 16)),
             pendingDocs := [] } ∧
    (st.msgsAfter key (fromLeBytes (bs.take 16)) = [] →
      (AsyncMessageServer.setup_index st key).1.logs key = st.logs key) ∧
    (∀ lastM, (st.msgsAfter key (fromLeBytes (bs.take 16))).getLast? = some lastM →
      (AsyncMessageServer.setup_index st key).1.logs key =
        some (toNeBytes st.endian lastM.id)) :=
  async_setup_replay st key bs hlog hlen hhub hchan

/-- Witness for C1_async_setup_replays: replaying `m4` after logged
id 3. -/
theorem C1_async_setup_replays_witness :
    stC1.logs (1, 1) = some (toLeBytes 3) ∧
    16 ≤ (toLeBytes 3).length ∧
    stC1.hubFiles 1 = true ∧
    stC1.channelInHub (1, 1) = true ∧
    ((AsyncMessageServer.setup_index stC1 (1, 1)).2 = .ok () ∧
      (AsyncMessageServer.setup_index stC1 (1, 1)).1.writers (1, 1) =
        some { committed :=
                 stC1.diskIndex (1, 1) ++
                   stC1.msgsAfter (1, 1) (fromLeBytes ((toLeBytes 3).take 16)),
               pendingDocs := [] } ∧
      (stC1.msgsAfter (1, 1) (fromLeBytes ((toLeBytes 3).take 16)) = [] →
        (AsyncMessageServer.setup_index stC1 (1, 1)).1.logs (1, 1) =
          stC1.logs (1, 1)) ∧
      (∀ lastM,
        (stC1.msgsAfter (1, 1) (fromLeBytes ((toLeBytes 3).take 16))).getLast? =
            some lastM →
          (AsyncMessageServer.setup_index stC1 (1, 1)).1.logs (1, 1) =
            some (toNeBytes stC1.endian lastM.id))) :=
  ⟨rfl, by decide, by decide, by decide,
    C1_async_setup_replays stC1 (1, 1) (toLeBytes 3) rfl (by decide) (by decide)
      (by decide)⟩

/-- C6 counterexample: the claim says replay deletes any existing
document with the same id before adding, so a replayed message never
duplicates an entry. The async replay adds unconditionally: with `mA`
already on disk and `mA` replayed again, the set-up index holds the
document twice. -/
theorem C6_counterexample :
    stC6.diskIndex (1, 1) = [mA] ∧
    stC6.msgsAfter (1, 1) 0 = [mA] ∧
    (AsyncMessageServer.setup_index stC6 (1, 1)).2 = .ok () ∧
    (AsyncMessageServer.setup_index stC6 (1, 1)).1.writers (1, 1) =
      some { committed := [mA, mA], pendingDocs := [] } := by
  refine ⟨by decide, by decide, rfl, by decide⟩

/-- C6 (amended): startup replay performs no deletion: the index after
replay holds the on-disk documents plus one new document per replayed
message, so a replayed message whose id is already present in the index
appears at least twice. -/
theorem C6_replay_duplicates (st : SrvState) (key : Key) (bs : List Nat)
    (m : Msg)
    (hlog : st.logs key = some bs)
    (hlen : 16 ≤ bs.length)
    (hhub : st.hubFiles key.1 = true)
    (hchan : st.channelInHub key = true)
    (hdisk : m ∈ st.diskIndex key)
    (hreplay : m ∈ st.msgsAfter key (fromLeBytes (bs.take 16))) :
    ∃ w, (AsyncMessageServer.setup_index st key).1.writers key = some w ∧
      2 ≤ w.committed.count m := by
  obtain ⟨-, hw, -, -⟩ := async_setup_replay st key bs hlog hlen hhub hchan
  refine ⟨_, hw, ?_⟩
  simp only [List.count_append]
  have h1 : 1 ≤ (st.diskIndex key).count m := List.count_pos_iff.mpr hdisk
  have h2 : 1 ≤ (st.msgsAfter key (fromLeBytes (bs.take 16))).count m :=
    List.count_pos_iff.mpr hreplay
  omega

/-- Witness for C6_replay_duplicates on the concrete duplicate state. -/
theorem C6_replay_duplicates_witness :
    stC6.logs (1, 1) = some (toLeBytes 0) ∧
    16 ≤ (toLeBytes 0).length ∧
    stC6.hubFiles 1 = true ∧
    stC6.channelInHub (1, 1) = true ∧
    mA ∈ stC6.diskIndex (1, 1) ∧
    mA ∈ stC6.msgsAfter (1, 1) (fromLeBytes ((toLeBytes 0).take 16)) ∧
    (∃ w, (AsyncMessageServer.setup_index stC6 (1, 1)).1.writers (1, 1) = some w ∧
      2 ≤ w.committed.count mA) :=
  ⟨rfl, by decide, by decide, by decide, by decide, by decide,
    C6_replay_duplicates stC6 (1, 1) (toLeBytes 0) mA rfl (by decide) (by decide)
      (by decide) (by decide) (by decide)⟩

/-! ## Step lemmas for the async add handler -/

theorem async_add_fresh_w (st : SrvState) (key : Key) (m : Msg) (w : TWriter)
    (hw : st.writers key = some w)
    (hp : st.pending key = none)
    (hlog : st.logs key = none) :
    (AsyncMessageServer.handle_new_message st key m).2 = .ok () ∧
    (AsyncMessageServer.handle_new_message st key m).1.writers key =
      some (w.addDoc m) ∧
    (AsyncMessageServer.handle_new_message st key m).1.pending key =
      some (1, m.id) ∧
    (AsyncMessageServer.handle_new_message st key m).1.logs key =
      some (toNeBytes st.endian m.id) ∧
    (AsyncMessageServer.handle_new_message st key m).1.threshold =
      st.threshold ∧
    (AsyncMessageServer.handle_new_message st key m).1.endian = st.endian := by
  simp [AsyncMessageServer.handle_new_message, AsyncMessageServer.ensure_index,
    AsyncMessageServer.log_if_nologs, hw, hp, hlog, upd_same, upd]

theorem async_add_fresh_nw (st : SrvState) (key : Key) (m : Msg)
    (hw : st.writers key = none)
    (hp : st.pending key = none)
    (hlog : st.logs key = none) :
    (AsyncMessageServer.handle_new_message st key m).2 = .ok () ∧
    (AsyncMessageServer.handle_new_message st key m).1.writers key =
      some (TWriter.addDoc { committed := st.diskIndex key, pendingDocs := [] } m) ∧
    (AsyncMessageServer.handle_new_message st key m).1.pending key =
      some (1, m.id) ∧
    (AsyncMessageServer.handle_new_message st key m).1.logs key =
      some (toNeBytes st.endian m.id) ∧
    (AsyncMessageServer.handle_new_message st key m).1.threshold =
      st.threshold ∧
    (AsyncMessageServer.handle_new_message st key m).1.endian = st.endian := by
  simp [AsyncMessageServer.handle_new_message, AsyncMessageServer.ensure_index,
    AsyncMessageServer.setup_index, AsyncMessageServer.log_if_nologs, hw, hp,
    hlog, upd_same, upd]

theorem async_add_below_nolog (st : SrvState) (key : Key) (m : Msg)
    (w : TWriter) (p x : Nat)
    (hw : st.writers key = some w)
    (hp : st.pending key = some (p, x))
    (hlt : p < st.threshold)
    (hlog : st.logs key = none) :
    (AsyncMessageServer.handle_new_message st key m).2 = .ok () ∧
    (AsyncMessageServer.handle_new_message st key m).1.writers key =
      some (w.addDoc m) ∧
    (AsyncMessageServer.handle_new_message st key m).1.pending key =
      some (p + 1, m.id) ∧
    (AsyncMessageServer.handle_new_message st key m).1.logs key =
      some (toNeBytes st.endian m.id) ∧
    (AsyncMessageServer.handle_new_message st key m).1.endian = st.endian := by
  simp [AsyncMessageServer.handle_new_message, AsyncMessageServer.ensure_index,
    AsyncMessageServer.log_if_nologs, hw, hp, hlog, upd_same, upd,
    Nat.not_le.mpr hlt]

theorem async_add_commit (st : SrvState) (key : Key) (m : Msg) (w : TWriter)
    (p x : Nat)
    (hw : st.writers key = some w)
    (hp : st.pending key = some (p, x))
    (hge : st.threshold ≤ p) :
    (AsyncMessageServer.handle_new_message st key m).2 = .ok () ∧
    (AsyncMessageServer.handle_new_message st key m).1.writers key =
      some ((w.addDoc m).commitW) ∧
    (AsyncMessageServer.handle_new_message st key m).1.pending key =
      some (0, m.id) ∧
    (AsyncMessageServer.handle_new_message st key m).1.logs key =
      some (toNeBytes st.endian m.id) ∧
    (AsyncMessageServer.handle_new_message st key m).1.endian = st.endian := by
  simp [AsyncMessageServer.handle_new_message, AsyncMessageServer.ensure_index,
    AsyncMessageServer.log_last_message, hw, hp, hge, upd_same, upd]

theorem async_add_fresh_logged (st : SrvState) (key : Key) (m : Msg)
    (bs : List Nat)
    (hp : st.pending key = none)
    (hlog : st.logs key = some bs) :
    ∃ e, (AsyncMessageServer.handle_new_message st key m).2 = .error e := by
  cases hw : st.writers key with
  | some w =>
    refine ⟨.Io, ?_⟩
    simp [AsyncMessageServer.handle_new_message, AsyncMessageServer.ensure_index,
      AsyncMessageServer.log_if_nologs, hw, hp, hlog]
  | none =>
    by_cases h16 : 16 ≤ bs.length
    · cases hhf : st.hubFiles key.1 with
      | false =>
        refine ⟨.HubNotFound, ?_⟩
        simp [AsyncMessageServer.handle_new_message,
          AsyncMessageServer.ensure_index, AsyncMessageServer.setup_index, hw,
          hlog, h16, hhf]
      | true =>
        cases hch : st.channelInHub key with
        | false =>
          refine ⟨.Io, ?_⟩
          simp [AsyncMessageServer.handle_new_message,
            AsyncMessageServer.ensure_index, AsyncMessageServer.setup_index,
            AsyncMessageServer.log_if_nologs, hw, hp, hlog, h16, hhf, hch,
            upd_same, upd]
        | true =>
          cases hlast : (st.msgsAfter key (fromLeBytes (bs.take 16))).getLast? with
          | none =>
            refine ⟨.Io, ?_⟩
            simp [AsyncMessageServer.handle_new_message,
              AsyncMessageServer.ensure_index, AsyncMessageServer.setup_index,
              AsyncMessageServer.log_if_nologs, hw, hp, hlog, h16, hhf, hch,
              hlast, upd_same, upd]
          | some lastM =>
            refine ⟨.Io, ?_⟩
            simp [AsyncMessageServer.handle_new_message,
              AsyncMessageServer.ensure_index, AsyncMessageServer.setup_index,
              AsyncMessageServer.log_if_nologs,
              AsyncMessageServer.log_last_message, hw, hp, hlog, h16, hhf, hch,
              hlast, upd_same, upd]
    · refine ⟨.Io, ?_⟩
      simp [AsyncMessageServer.handle_new_message,
        AsyncMessageServer.ensure_index, AsyncMessageServer.setup_index, hw,
        hlog, h16]

theorem async_add_below_logged (st : SrvState) (key : Key) (m : Msg)
    (p x : Nat) (bs : List Nat)
    (hp : st.pending key = some (p, x))
    (hlt : p < st.threshold)
    (hlog : st.logs key = some bs) :
    ∃ e, (AsyncMessageServer.handle_new_message st key m).2 = .error e := by
  cases hw : st.writers key with
  | some w =>
    refine ⟨.Io, ?_⟩
    simp [AsyncMessageServer.handle_new_message, AsyncMessageServer.ensure_index,
      AsyncMessageServer.log_if_nologs, hw, hp, hlog, Nat.not_le.mpr hlt]
  | none =>
    by_cases h16 : 16 ≤ bs.length
    · cases hhf : st.hubFiles key.1 with
      | false =>
        refine ⟨.HubNotFound, ?_⟩
        simp [AsyncMessageServer.handle_new_message,
          AsyncMessageServer.ensure_index, AsyncMessageServer.setup_index, hw,
          hlog, h16, hhf]
      | true =>
        cases hch : st.channelInHub key with
        | false =>
          refine ⟨.Io, ?_⟩
          simp [AsyncMessageServer.handle_new_message,
            AsyncMessageServer.ensure_index, AsyncMessageServer.setup_index,
            AsyncMessageServer.log_if_nologs, hw, hp, hlog, h16, hhf, hch,
            upd_same, upd, Nat.not_le.mpr hlt]
        | true =>
          cases hlast : (st.msgsAfter key (fromLeBytes (bs.take 16))).getLast? with
          | none =>
            refine ⟨.Io, ?_⟩
            simp [AsyncMessageServer.handle_new_message,
              AsyncMessageServer.ensure_index, AsyncMessageServer.setup_index,
              AsyncMessageServer.log_if_nologs, hw, hp, hlog, h16, hhf, hch,
              hlast, upd_same, upd, Nat.not_le.mpr hlt]
          | some lastM =>
            refine ⟨.Io, ?_⟩
            simp [AsyncMessageServer.handle_new_message,
              AsyncMessageServer.ensure_index, AsyncMessageServer.setup_index,
              AsyncMessageServer.log_if_nologs,
              AsyncMessageServer.log_last_message, hw, hp, hlog, h16, hhf, hch,
              hlast, upd_same, upd, Nat.not_le.mpr hlt]
    · refine ⟨.Io, ?_⟩
      simp [AsyncMessageServer.handle_new_message,
        AsyncMessageServer.ensure_index, AsyncMessageServer.setup_index, hw,
        hlog, h16]

theorem addStep_ok (key : Key) (st : SrvState) (flag : Bool) (m : Msg)
    (h : (AsyncMessageServer.handle_new_message st key m).2 = .ok ()) :
    AsyncMessageServer.addStep key (st, flag) m =
      ((AsyncMessageServer.handle_new_message st key m).1, flag) := by
  cases hH : AsyncMessageServer.handle_new_message st key m with
  | mk st2 r =>
    rw [hH] at h
    simp at h
    subst h
    simp [AsyncMessageServer.addStep, hH]

theorem addStep_err (key : Key) (st : SrvState) (flag : Bool) (m : Msg)
    (e : Error)
    (h : (AsyncMessageServer.handle_new_message st key m).2 = .error e) :
    AsyncMessageServer.addStep key (st, flag) m =
      ((AsyncMessageServer.handle_new_message st key m).1, false) := by
  cases hH : AsyncMessageServer.handle_new_message st key m with
  | mk st2 r =>
    rw [hH] at h
    simp at h
    subst h
    simp [AsyncMessageServer.addStep, hH]

theorem addAllOk_false (key : Key) (msgs : List Msg) :
    ∀ st : SrvState,
      (msgs.foldl (AsyncMessageServer.addStep key) (st, false)).2 = false := by
  induction msgs with
  | nil => intro st; rfl
  | cons m rest ih =>
    intro st
    rw [List.foldl_cons]
    cases hH : AsyncMessageServer.handle_new_message st key m with
    | mk st2 r =>
      cases r with
      | ok u => simpa [AsyncMessageServer.addStep, hH] using ih st2
      | error e => simpa [AsyncMessageServer.addStep, hH] using ih st2

/-! ## Claim C2: commit-threshold triggering -/

theorem sync_add_none (st : SrvState) (key : Key) (m : Msg)
    (hp : st.pending key = none) :
    (MessageServer.handle_new_message st key m).1.pending key = some (1, m.id) ∧
    (MessageServer.handle_new_message st key m).1.logs key = st.logs key ∧
    (MessageServer.handle_new_message st key m).1.threshold = st.threshold := by
  unfold MessageServer.handle_new_message MessageServer.ensure_index
  cases hw : st.writers key with
  | none => simp [MessageServer.setup_index, hw, hp, upd_same]
  | some w => simp [hw, hp, upd_same]

theorem sync_add_below (st : SrvState) (key : Key) (m : Msg) (p x : Nat)
    (hp : st.pending key = some (p, x)) (hlt : p < st.threshold) :
    (MessageServer.handle_new_message st key m).1.pending key =
      some (p + 1, m.id) ∧
    (MessageServer.handle_new_message st key m).1.logs key = st.logs key ∧
    (MessageServer.handle_new_message st key m).1.threshold = st.threshold := by
  unfold MessageServer.handle_new_message MessageServer.ensure_index
  cases hw : st.writers key with
  | none =>
    simp [MessageServer.setup_index, hw, hp, upd_same, Nat.not_le.mpr hlt]
  | some w =>
    simp [hw, hp, upd_same, Nat.not_le.mpr hlt]

theorem sync_add_commit (st : SrvState) (key : Key) (m : Msg) (p x : Nat)
    (hp : st.pending key = some (p, x)) (hge : st.threshold ≤ p) :
    (MessageServer.handle_new_message st key m).1.pending key = some (0, m.id) ∧
    (MessageServer.handle_new_message st key m).1.logs key =
      some (uuidAsBytes m.id) ∧
    (MessageServer.handle_new_message st key m).1.threshold = st.threshold := by
  unfold MessageServer.handle_new_message MessageServer.ensure_index
  cases hw : st.writers key with
  | none =>
    simp [MessageServer.setup_index, MessageServer.log_last_message, hw, hp, hge,
      upd_same]
  | some w =>
    simp [MessageServer.log_last_message, hw, hp, hge, upd_same]

theorem lastIdOr_cons (m : Msg) (rest : List Msg) (x : Nat) :
    MessageServer.lastIdOr (m :: rest) x = MessageServer.lastIdOr rest m.id := by
  cases rest with
  | nil => simp [MessageServer.lastIdOr]
  | cons b bs =>
    simp only [MessageServer.lastIdOr, List.getLast?_cons_cons]
    cases h : (b :: bs).getLast? with
    | none => simp at h
    | some y => rfl

theorem sync_addAll_below (key : Key) (msgs : List Msg) :
    ∀ st c x, st.pending key = some (c, x) → c + msgs.length ≤ st.threshold →
    (MessageServer.addAll st key msgs).pending key =
      some (c + msgs.length, MessageServer.lastIdOr msgs x) ∧
    (MessageServer.addAll st key msgs).logs key = st.logs key ∧
    (MessageServer.addAll st key msgs).threshold = st.threshold := by
  induction msgs with
  | nil =>
    intro st c x hp hle
    refine ⟨?_, rfl, rfl⟩
    simpa [MessageServer.lastIdOr] using hp
  | cons m rest ih =>
    intro st c x hp hle
    have hlt : c < st.threshold := by
      simp only [List.length_cons] at hle
      omega
    obtain ⟨h1, h2, h3⟩ := sync_add_below st key m c x hp hlt
    have hstep : MessageServer.addAll st key (m :: rest) =
        MessageServer.addAll ((MessageServer.handle_new_message st key m).1) key
          rest := rfl
    rw [hstep]
    obtain ⟨g1, g2, g3⟩ :=
      ih ((MessageServer.handle_new_message st key m).1) (c + 1) m.id h1
        (by rw [h3]; simp only [List.length_cons] at hle; omega)
    refine ⟨?_, by rw [g2, h2], by rw [g3, h3]⟩
    rw [g1, lastIdOr_cons]
    simp only [List.length_cons, Option.some.injEq, Prod.mk.injEq]
    exact ⟨by omega, trivial⟩

/-- C2 counterexample: with CommitThreshold 0, after exactly
CommitThreshold+1 = 1 successful add from no pending entry, the sync
server leaves the pending count at 1 and writes no recovery log (the
no-entry branch of the first add skips the threshold check), and the
async server likewise leaves the count at 1; the claim expects count 0
and the log at the added id. -/
theorem C2_counterexample :
    stZ.threshold = 0 ∧
    stZ.pending (1, 1) = none ∧
    (MessageServer.addAll stZ (1, 1) [mA]).pending (1, 1) = some (1, mA.id) ∧
    (MessageServer.addAll stZ (1, 1) [mA]).logs (1, 1) = none ∧
    (AsyncMessageServer.addAllOk stZ (1, 1) [mA]).2 = true ∧
    (AsyncMessageServer.addAllOk stZ (1, 1) [mA]).1.pending (1, 1) =
      some (1, mA.id) := by
  refine ⟨rfl, rfl, by decide, by decide, by decide, by decide⟩

/-- C2 (amended): for a positive CommitThreshold, starting with no
pending entry, after exactly CommitThreshold+1 successful adds the
pending count is 0 and the recovery log holds the id of the most recent
add (the commit fires on the add whose prior pending count has reached
the threshold, and that add's id is logged): unconditionally for the
sync `MessageServer`, and for every run through the async
`AsyncMessageServer` in which each add returned Ok — from a fresh state
such an async run exists exactly at CommitThreshold 1, since the first
add creates the recovery log and any later below-threshold add then
fails (see C10). With CommitThreshold 0 the first add's no-entry branch
skips the check and the property fails. -/
theorem C2_commit_threshold (st : SrvState) (key : Key) (msgs : List Msg)
    (m : Msg)
    (hp : st.pending key = none)
    (hthr : 1 ≤ st.threshold)
    (hlen : msgs.length = st.threshold) :
    ((MessageServer.addAll st key (msgs ++ [m])).pending key = some (0, m.id) ∧
      (MessageServer.addAll st key (msgs ++ [m])).logs key =
        some (uuidAsBytes m.id)) ∧
    ((AsyncMessageServer.addAllOk st key (msgs ++ [m])).2 = true →
      (AsyncMessageServer.addAllOk st key (msgs ++ [m])).1.pending key =
        some (0, m.id) ∧
      (AsyncMessageServer.addAllOk st key (msgs ++ [m])).1.logs key =
        some (toNeBytes st.endian m.id)) := by
  constructor
  · cases msgs with
    | nil =>
      rw [← hlen] at hthr
      simp at hthr
    | cons m₀ rest =>
      obtain ⟨h1, h2, h3⟩ := sync_add_none st key m₀ hp
      have hstep : MessageServer.addAll st key ((m₀ :: rest) ++ [m]) =
          MessageServer.addAll ((MessageServer.handle_new_message st key m₀).1)
            key (rest ++ [m]) := rfl
      rw [hstep]
      obtain ⟨g1, g2, g3⟩ :=
        sync_addAll_below key rest
          ((MessageServer.handle_new_message st key m₀).1) 1 m₀.id h1
          (by rw [h3]; simp only [List.length_cons] at hlen; omega)
      have hsplit : MessageServer.addAll
          ((MessageServer.handle_new_message st key m₀).1) key (rest ++ [m]) =
          (MessageServer.handle_new_message
            (MessageServer.addAll
              ((MessageServer.handle_new_message st key m₀).1) key rest) key
            m).1 := by
        simp [MessageServer.addAll, List.foldl_append]
      rw [hsplit]
      have hge : (MessageServer.addAll
          ((MessageServer.handle_new_message st key m₀).1) key rest).threshold ≤
          1 + rest.length := by
        rw [g3, h3]
        simp only [List.length_cons] at hlen
        omega
      obtain ⟨k1, k2, -⟩ :=
        sync_add_commit _ key m (1 + rest.length)
          (MessageServer.lastIdOr rest m₀.id) g1 hge
      exact ⟨k1, k2⟩
  · intro hok
    cases msgs with
    | nil =>
      rw [← hlen] at hthr
      simp at hthr
    | cons m1 rest =>
      cases hlog : st.logs key with
      | some bs =>
        exfalso
        obtain ⟨e, he⟩ := async_add_fresh_logged st key m1 bs hp hlog
        have hstep1 := addStep_err key st true m1 e he
        have hfalse : (AsyncMessageServer.addAllOk st key
            ((m1 :: rest) ++ [m])).2 = false := by
          simp only [AsyncMessageServer.addAllOk, List.cons_append,
            List.foldl_cons, hstep1]
          exact addAllOk_false key (rest ++ [m]) _
        rw [hfalse] at hok
        simp at hok
      | none =>
        cases hw : st.writers key with
        | some w =>
          obtain ⟨ha1, hw1, hp1, hlog1, hthr1, hend1⟩ :=
            async_add_fresh_w st key m1 w hw hp hlog
          have hstep1 := addStep_ok key st true m1 ha1
          cases rest with
          | nil =>
            obtain ⟨ha2, hw2, hp2, hlog2, hend2⟩ :=
              async_add_commit (AsyncMessageServer.handle_new_message st key
                m1).1 key m (w.addDoc m1) 1 m1.id hw1 hp1
                (by rw [hthr1, ← hlen]; simp)
            have hstep2 := addStep_ok key
              (AsyncMessageServer.handle_new_message st key m1).1 true m ha2
            have hrun : AsyncMessageServer.addAllOk st key ((m1 :: []) ++ [m]) =
                ((AsyncMessageServer.handle_new_message
                  (AsyncMessageServer.handle_new_message st key m1).1 key m).1,
                 true) := by
              simp only [AsyncMessageServer.addAllOk, List.cons_append,
                List.nil_append, List.foldl_cons, List.foldl_nil, hstep1,
                hstep2]
            rw [hrun]
            rw [hend1] at hlog2
            exact ⟨hp2, hlog2⟩
          | cons m2 rest2 =>
            exfalso
            have h1T : 1 <
                (AsyncMessageServer.handle_new_message st key m1).1.threshold := by
              rw [hthr1, ← hlen]
              simp only [List.length_cons]
              omega
            obtain ⟨e, he⟩ := async_add_below_logged
              (AsyncMessageServer.handle_new_message st key m1).1 key m2 1
              m1.id _ hp1 h1T hlog1
            have hstep2 := addStep_err key
              (AsyncMessageServer.handle_new_message st key m1).1 true m2 e he
            have hfalse : (AsyncMessageServer.addAllOk st key
                ((m1 :: m2 :: rest2) ++ [m])).2 = false := by
              simp only [AsyncMessageServer.addAllOk, List.cons_append,
                List.foldl_cons, hstep1, hstep2]
              exact addAllOk_false key (rest2 ++ [m]) _
            rw [hfalse] at hok
            simp at hok
        | none =>
          obtain ⟨ha1, hw1, hp1, hlog1, hthr1, hend1⟩ :=
            async_add_fresh_nw st key m1 hw hp hlog
          have hstep1 := addStep_ok key st true m1 ha1
          cases rest with
          | nil =>
            obtain ⟨ha2, hw2, hp2, hlog2, hend2⟩ :=
              async_add_commit (AsyncMessageServer.handle_new_message st key
                m1).1 key m
                (TWriter.addDoc ⟨st.diskIndex key, []⟩ m1) 1 m1.id hw1 hp1
                (by rw [hthr1, ← hlen]; simp)
            have hstep2 := addStep_ok key
              (AsyncMessageServer.handle_new_message st key m1).1 true m ha2
            have hrun : AsyncMessageServer.addAllOk st key ((m1 :: []) ++ [m]) =
                ((AsyncMessageServer.handle_new_message
                  (AsyncMessageServer.handle_new_message st key m1).1 key m).1,
                 true) := by
              simp only [AsyncMessageServer.addAllOk, List.cons_append,
                List.nil_append, List.foldl_cons, List.foldl_nil, hstep1,
                hstep2]
            rw [hrun]
            rw [hend1] at hlog2
            exact ⟨hp2, hlog2⟩
          | cons m2 rest2 =>
            exfalso
            have h1T : 1 <
                (AsyncMessageServer.handle_new_message st key m1).1.threshold := by
              rw [hthr1, ← hlen]
              simp only [List.length_cons]
              omega
            obtain ⟨e, he⟩ := async_add_below_logged
              (AsyncMessageServer.handle_new_message st key m1).1 key m2 1
              m1.id _ hp1 h1T hlog1
            have hstep2 := addStep_err key
              (AsyncMessageServer.handle_new_message st key m1).1 true m2 e he
            have hfalse : (AsyncMessageServer.addAllOk st key
                ((m1 :: m2 :: rest2) ++ [m])).2 = false := by
              simp only [AsyncMessageServer.addAllOk, List.cons_append,
                List.foldl_cons, hstep1, hstep2]
              exact addAllOk_false key (rest2 ++ [m]) _
            rw [hfalse] at hok
            simp at hok

/-- Witness for C2_commit_threshold: threshold 1, adds of mA then mB;
the async run of both adds succeeds concretely. -/
theorem C2_commit_threshold_witness :
    stW.pending (1, 1) = none ∧
    1 ≤ stW.threshold ∧
    [mA].length = stW.threshold ∧
    (AsyncMessageServer.addAllOk stW (1, 1) ([mA] ++ [mB])).2 = true ∧
    (((MessageServer.addAll stW (1, 1) ([mA] ++ [mB])).pending (1, 1) =
        some (0, mB.id) ∧
      (MessageServer.addAll stW (1, 1) ([mA] ++ [mB])).logs (1, 1) =
        some (uuidAsBytes mB.id)) ∧
     ((AsyncMessageServer.addAllOk stW (1, 1) ([mA] ++ [mB])).2 = true →
       (AsyncMessageServer.addAllOk stW (1, 1) ([mA] ++ [mB])).1.pending (1, 1) =
         some (0, mB.id) ∧
       (AsyncMessageServer.addAllOk stW (1, 1) ([mA] ++ [mB])).1.logs (1, 1) =
         some (toNeBytes stW.endian mB.id))) :=
  ⟨rfl, by decide, by decide, by decide,
    C2_commit_threshold stW (1, 1) [mA] mB rfl (by decide) (by decide)⟩

/-! ## Claim C3: search reads its own writes -/

theorem sync_add_writers_none (st : SrvState) (key : Key) (m : Msg) (w : TWriter)
    (hw : st.writers key = some w) (hp : st.pending key = none) :
    (MessageServer.handle_new_message st key m).1.writers key =
      some (w.addDoc m) := by
  unfold MessageServer.handle_new_message MessageServer.ensure_index
  simp [hw, hp, upd_same]

theorem sync_add_writers_below (st : SrvState) (key : Key) (m : Msg) (w : TWriter)
    (p x : Nat)
    (hw : st.writers key = some w) (hp : st.pending key = some (p, x))
    (hlt : p < st.threshold) :
    (MessageServer.handle_new_message st key m).1.writers key =
      some (w.addDoc m) := by
  unfold MessageServer.handle_new_message MessageServer.ensure_index
  simp [hw, hp, upd_same, Nat.not_le.mpr hlt]

theorem sync_add_writers_commit (st : SrvState) (key : Key) (m : Msg)
    (w : TWriter) (p x : Nat)
    (hw : st.writers key = some w) (hp : st.pending key = some (p, x))
    (hge : st.threshold ≤ p) :
    (MessageServer.handle_new_message st key m).1.writers key =
      some ((w.addDoc m).commitW) := by
  unfold MessageServer.handle_new_message MessageServer.ensure_index
  simp [MessageServer.log_last_message, hw, hp, hge, upd_same]

theorem sync_search_commit (st : SrvState) (key : Key) (q : Msg → Bool)
    (limit : Nat) (w : TWriter) (c mid : Nat)
    (hw : st.writers key = some w) (hp : st.pending key = some (c, mid))
    (hc : c ≠ 0) :
    (MessageServer.handle_search st key q limit).2 =
      .ok (((w.commitW.committed.filter q).map Msg.id).take limit) ∧
    (MessageServer.handle_search st key q limit).1.writers key =
      some w.commitW ∧
    (MessageServer.handle_search st key q limit).1.logs key =
      some (uuidAsBytes mid) ∧
    (MessageServer.handle_search st key q limit).1.pending key =
      some (0, mid) := by
  unfold MessageServer.handle_search MessageServer.ensure_index
  simp [MessageServer.log_last_message, hw, hp, hc, upd_same, upd]

theorem sync_search_nocommit (st : SrvState) (key : Key) (q : Msg → Bool)
    (limit : Nat) (w : TWriter) (mid : Nat)
    (hw : st.writers key = some w) (hp : st.pending key = some (0, mid)) :
    (MessageServer.handle_search st key q limit).2 =
      .ok (((w.committed.filter q).map Msg.id).take limit) ∧
    (MessageServer.handle_search st key q limit).1.writers key = some w ∧
    (MessageServer.handle_search st key q limit).1.logs key = st.logs key ∧
    (MessageServer.handle_search st key q limit).1.pending key =
      some (0, mid) := by
  unfold MessageServer.handle_search MessageServer.ensure_index
  simp [hw, hp, upd_same, upd]

theorem async_search_commit (st : SrvState) (key : Key) (q : Msg → Bool)
    (limit : Nat) (w : TWriter) (c mid : Nat)
    (hw : st.writers key = some w) (hp : st.pending key = some (c, mid))
    (hc : c ≠ 0) :
    (AsyncMessageServer.handle_search st key q limit).2 =
      .ok (((w.commitW.committed.filter q).map Msg.id).take limit) ∧
    (AsyncMessageServer.handle_search st key q limit).1.writers key =
      some w.commitW ∧
    (AsyncMessageServer.handle_search st key q limit).1.logs key =
      some (toNeBytes st.endian mid) ∧
    (AsyncMessageServer.handle_search st key q limit).1.pending key =
      some (0, mid) := by
  unfold AsyncMessageServer.handle_search AsyncMessageServer.ensure_index
  simp [AsyncMessageServer.log_last_message, hw, hp, hc, upd_same, upd]

theorem async_search_nocommit (st : SrvState) (key : Key) (q : Msg → Bool)
    (limit : Nat) (w : TWriter) (mid : Nat)
    (hw : st.writers key = some w) (hp : st.pending key = some (0, mid)) :
    (AsyncMessageServer.handle_search st key q limit).2 =
      .ok (((w.committed.filter q).map Msg.id).take limit) ∧
    (AsyncMessageServer.handle_search st key q limit).1.writers key = some w ∧
    (AsyncMessageServer.handle_search st key q limit).1.logs key =
      st.logs key ∧
    (AsyncMessageServer.handle_search st key q limit).1.pending key =
      some (0, mid) := by
  unfold AsyncMessageServer.handle_search AsyncMessageServer.ensure_index
  simp [hw, hp, upd_same, upd]

/-- C3: after an `add` of `m` that returned, a search whose query
matches `m` (with room in the limit for every match) first commits the
writer and records the last pending id in the recovery log before
running the query, and its result contains `m.id`: search reads its own
writes. Proved for the sync `MessageServer` unconditionally, and for
the async `AsyncMessageServer` for every add that returned Ok (the
async add can fail, see C10; a failed add is not covered by the
claim). -/
theorem C3_search_reads_own_writes (st : SrvState) (key : Key) (m : Msg)
    (w : TWriter) (q : Msg → Bool) (limit : Nat)
    (hw : st.writers key = some w)
    (hq : q m = true)
    (hlim : ((w.committed ++ w.pendingDocs ++ [m]).filter q).length ≤ limit) :
    ((MessageServer.handle_search (MessageServer.handle_new_message st key m).1
        key q limit).2 =
      .ok (((w.committed ++ w.pendingDocs ++ [m]).filter q).map Msg.id) ∧
    m.id ∈ ((w.committed ++ w.pendingDocs ++ [m]).filter q).map Msg.id ∧
    (MessageServer.handle_search (MessageServer.handle_new_message st key m).1
        key q limit).1.writers key =
      some { committed := w.committed ++ w.pendingDocs ++ [m], pendingDocs := [] } ∧
    (MessageServer.handle_search (MessageServer.handle_new_message st key m).1
        key q limit).1.logs key = some (uuidAsBytes m.id) ∧
    (MessageServer.handle_search (MessageServer.handle_new_message st key m).1
        key q limit).1.pending key = some (0, m.id)) ∧
    ((AsyncMessageServer.handle_new_message st key m).2 = .ok () →
      (AsyncMessageServer.handle_search
          (AsyncMessageServer.handle_new_message st key m).1 key q limit).2 =
        .ok (((w.committed ++ w.pendingDocs ++ [m]).filter q).map Msg.id) ∧
      (AsyncMessageServer.handle_search
          (AsyncMessageServer.handle_new_message st key m).1 key q
          limit).1.writers key =
        some { committed := w.committed ++ w.pendingDocs ++ [m],
               pendingDocs := [] } ∧
      (AsyncMessageServer.handle_search
          (AsyncMessageServer.handle_new_message st key m).1 key q
          limit).1.logs key = some (toNeBytes st.endian m.id) ∧
      (AsyncMessageServer.handle_search
          (AsyncMessageServer.handle_new_message st key m).1 key q
          limit).1.pending key = some (0, m.id)) := by
  have hmemfull : m ∈ w.committed ++ w.pendingDocs ++ [m] := by simp
  have hmemf : m ∈ (w.committed ++ w.pendingDocs ++ [m]).filter q :=
    List.mem_filter.mpr ⟨hmemfull, hq⟩
  have hmem : m.id ∈ ((w.committed ++ w.pendingDocs ++ [m]).filter q).map Msg.id :=
    List.mem_map_of_mem Msg.id hmemf
  have htake : (((w.committed ++ w.pendingDocs ++ [m]).filter q).map Msg.id).take
      limit = ((w.committed ++ w.pendingDocs ++ [m]).filter q).map Msg.id :=
    List.take_of_length_le (by simpa using hlim)
  have hfullW : (w.addDoc m).commitW =
      { committed := w.committed ++ w.pendingDocs ++ [m], pendingDocs := [] } := by
    simp [TWriter.addDoc, TWriter.commitW]
  constructor
  · rcases hp : st.pending key with - | ⟨p, x⟩
    · have hw1 := sync_add_writers_none st key m w hw hp
      obtain ⟨a1, -, -⟩ := sync_add_none st key m hp
      obtain ⟨s1, s2, s3, s4⟩ :=
        sync_search_commit (MessageServer.handle_new_message st key m).1 key q
          limit (w.addDoc m) 1 m.id hw1 a1 (by decide)
      rw [hfullW] at s1 s2
      exact ⟨by rw [s1, htake], hmem, s2, s3, s4⟩
    · by_cases hT : st.threshold ≤ p
      · have hw1 := sync_add_writers_commit st key m w p x hw hp hT
        obtain ⟨a1, a2, -⟩ := sync_add_commit st key m p x hp hT
        obtain ⟨s1, s2, s3, s4⟩ :=
          sync_search_nocommit (MessageServer.handle_new_message st key m).1
            key q limit ((w.addDoc m).commitW) m.id hw1 a1
        rw [hfullW] at s1 s2
        rw [a2] at s3
        exact ⟨by rw [s1, htake], hmem, s2, s3, s4⟩
      · have hw1 := sync_add_writers_below st key m w p x hw hp
          (Nat.not_le.mp hT)
        obtain ⟨a1, -, -⟩ := sync_add_below st key m p x hp (Nat.not_le.mp hT)
        obtain ⟨s1, s2, s3, s4⟩ :=
          sync_search_commit (MessageServer.handle_new_message st key m).1 key q
            limit (w.addDoc m) (p + 1) m.id hw1 a1 (by omega)
        rw [hfullW] at s1 s2
        exact ⟨by rw [s1, htake], hmem, s2, s3, s4⟩
  · intro hok
    rcases hp : st.pending key with - | ⟨p, x⟩
    · cases hlog : st.logs key with
      | some bs =>
        obtain ⟨e, he⟩ := async_add_fresh_logged st key m bs hp hlog
        rw [he] at hok
        simp at hok
      | none =>
        obtain ⟨-, hw1, hp1, hlog1, -, hend1⟩ :=
          async_add_fresh_w st key m w hw hp hlog
        obtain ⟨s1, s2, s3, s4⟩ :=
          async_search_commit (AsyncMessageServer.handle_new_message st key
            m).1 key q limit (w.addDoc m) 1 m.id hw1 hp1 (by decide)
        rw [hfullW] at s1 s2
        rw [hend1] at s3
        exact ⟨by rw [s1, htake], s2, s3, s4⟩
    · by_cases hT : st.threshold ≤ p
      · obtain ⟨-, hw1, hp1, hlog1, hend1⟩ :=
          async_add_commit st key m w p x hw hp hT
        obtain ⟨s1, s2, s3, s4⟩ :=
          async_search_nocommit (AsyncMessageServer.handle_new_message st key
            m).1 key q limit ((w.addDoc m).commitW) m.id hw1 hp1
        rw [hfullW] at s1 s2
        rw [hlog1] at s3
        exact ⟨by rw [s1, htake], s2, s3, s4⟩
      · cases hlog : st.logs key with
        | some bs =>
          obtain ⟨e, he⟩ := async_add_below_logged st key m p x bs hp
            (Nat.not_le.mp hT) hlog
          rw [he] at hok
          simp at hok
        | none =>
          obtain ⟨-, hw1, hp1, hlog1, hend1⟩ :=
            async_add_below_nolog st key m w p x hw hp (Nat.not_le.mp hT) hlog
          obtain ⟨s1, s2, s3, s4⟩ :=
            async_search_commit (AsyncMessageServer.handle_new_message st key
              m).1 key q limit (w.addDoc m) (p + 1) m.id hw1 hp1 (by omega)
          rw [hfullW] at s1 s2
          rw [hend1] at s3
          exact ⟨by rw [s1, htake], s2, s3, s4⟩

/-- Witness for C3_search_reads_own_writes: add mA, then search for its
content with limit 10; the async add of mA returns Ok concretely. -/
theorem C3_search_reads_own_writes_witness :
    stS.writers (1, 1) = some { committed := [], pendingDocs := [] } ∧
    (fun d : Msg => d.content == "alpha") mA = true ∧
    ((([] ++ [] ++ [mA]).filter (fun d : Msg => d.content == "alpha")).length
      ≤ 10) ∧
    (AsyncMessageServer.handle_new_message stS (1, 1) mA).2 = .ok () ∧
    (((MessageServer.handle_search
        (MessageServer.handle_new_message stS (1, 1) mA).1 (1, 1)
        (fun d : Msg => d.content == "alpha") 10).2 =
      .ok ((([] ++ [] ++ [mA]).filter
        (fun d : Msg => d.content == "alpha")).map Msg.id) ∧
      mA.id ∈ (([] ++ [] ++ [mA]).filter
        (fun d : Msg => d.content == "alpha")).map Msg.id ∧
      (MessageServer.handle_search
          (MessageServer.handle_new_message stS (1, 1) mA).1 (1, 1)
          (fun d : Msg => d.content == "alpha") 10).1.writers (1, 1) =
        some { committed := [] ++ [] ++ [mA], pendingDocs := [] } ∧
      (MessageServer.handle_search
          (MessageServer.handle_new_message stS (1, 1) mA).1 (1, 1)
          (fun d : Msg => d.content == "alpha") 10).1.logs (1, 1) =
        some (uuidAsBytes mA.id) ∧
      (MessageServer.handle_search
          (MessageServer.handle_new_message stS (1, 1) mA).1 (1, 1)
          (fun d : Msg => d.content == "alpha") 10).1.pending (1, 1) =
        some (0, mA.id)) ∧
     ((AsyncMessageServer.handle_new_message stS (1, 1) mA).2 = .ok () →
       (AsyncMessageServer.handle_search
           (AsyncMessageServer.handle_new_message stS (1, 1) mA).1 (1, 1)
           (fun d : Msg => d.content == "alpha") 10).2 =
         .ok ((([] ++ [] ++ [mA]).filter
           (fun d : Msg => d.content == "alpha")).map Msg.id) ∧
       (AsyncMessageServer.handle_search
           (AsyncMessageServer.handle_new_message stS (1, 1) mA).1 (1, 1)
           (fun d : Msg => d.content == "alpha") 10).1.writers (1, 1) =
         some { committed := [] ++ [] ++ [mA], pendingDocs := [] } ∧
       (AsyncMessageServer.handle_search
           (AsyncMessageServer.handle_new_message stS (1, 1) mA).1 (1, 1)
           (fun d : Msg => d.content == "alpha") 10).1.logs (1, 1) =
         some (toNeBytes stS.endian mA.id) ∧
       (AsyncMessageServer.handle_search
           (AsyncMessageServer.handle_new_message stS (1, 1) mA).1 (1, 1)
           (fun d : Msg => d.content == "alpha") 10).1.pending (1, 1) =
         some (0, mA.id))) :=
  ⟨rfl, by decide, by decide, rfl,
    C3_search_reads_own_writes stS (1, 1) mA
      { committed := [], pendingDocs := [] }
      (fun d : Msg => d.content == "alpha") 10 rfl (by decide) (by decide)⟩

/-! ## Claim C7: registry consistency and disconnect cleanup -/

theorem inv_init : Inv Registry.init := by
  constructor <;> intro s k <;> simp [Registry.init, fwdChan, fwdHub]

theorem inv_subHub (r : Registry) (sess hubId : Nat) (h : Inv r) :
    Inv (r.subHub sess hubId) := by
  obtain ⟨hc, hh⟩ := h
  constructor
  · intro s k
    by_cases hs : s = sess
    · subst hs
      have hck := hc s k
      cases hss : r.sessions s with
      | none => simp [Registry.subHub, fwdChan, hss] at hck ⊢; simp [← hck]
      | some p => simp [Registry.subHub, fwdChan, hss] at hck ⊢; simp [← hck]
    · have hck := hc s k
      simp [Registry.subHub, fwdChan, hs] at hck ⊢
      exact hck
  · intro s hId
    by_cases hs : s = sess
    · subst hs
      have hhk := hh s hId
      by_cases hHub : hId = hubId
      · subst hHub
        cases hss : r.sessions s <;>
          simp [Registry.subHub, fwdHub, hss]
      · cases hss : r.sessions s with
        | none =>
          simp [fwdHub, hss] at hhk
          simp [Registry.subHub, fwdHub, hss, hHub, ← hhk]
        | some p =>
          simp [fwdHub, hss] at hhk
          simp [Registry.subHub, fwdHub, hss, hHub, ← hhk]
    · have hhk := hh s hId
      by_cases hHub : hId = hubId
      · subst hHub
        simp [Registry.subHub, fwdHub, hs] at hhk ⊢
        simpa [hs] using hhk
      · simp [Registry.subHub, fwdHub, hs, hHub] at hhk ⊢
        exact hhk

theorem inv_subChan (r : Registry) (sess : Nat) (key : Key) (h : Inv r) :
    Inv (r.subChan sess key) := by
  obtain ⟨hc, hh⟩ := h
  constructor
  · intro s k
    by_cases hs : s = sess
    · subst hs
      have hck := hc s k
      by_cases hK : k = key
      · subst hK
        cases hss : r.sessions s <;>
          simp [Registry.subChan, fwdChan, hss]
      · cases hss : r.sessions s with
        | none =>
          simp [fwdChan, hss] at hck
          simp [Registry.subChan, fwdChan, hss, hK, ← hck]
        | some p =>
          simp [fwdChan, hss] at hck
          simp [Registry.subChan, fwdChan, hss, hK, ← hck]
    · have hck := hc s k
      by_cases hK : k = key
      · subst hK
        simp [Registry.subChan, fwdChan, hs] at hck ⊢
        simpa [hs] using hck
      · simp [Registry.subChan, fwdChan, hs, hK] at hck ⊢
        exact hck
  · intro s hId
    by_cases hs : s = sess
    · subst hs
      have hhk := hh s hId
      cases hss : r.sessions s with
      | none => simp [Registry.subChan, fwdHub, hss] at hhk ⊢; simp [← hhk]
      | some p => simp [Registry.subChan, fwdHub, hss] at hhk ⊢; simp [← hhk]
    · have hhk := hh s hId
      simp [Registry.subChan, fwdHub, hs] at hhk ⊢
      exact hhk

theorem inv_unsubHub (r : Registry) (sess hubId : Nat) (h : Inv r) :
    Inv (r.unsubHub sess hubId) := by
  obtain ⟨hc, hh⟩ := h
  constructor
  · intro s k
    have hck := hc s k
    by_cases hs : s = sess
    · subst hs
      cases hss : r.sessions s with
      | none => simp [fwdChan, hss] at hck; simp [Registry.unsubHub, fwdChan, hss, ← hck]
      | some p => simp [fwdChan, hss] at hck; simp [Registry.unsubHub, fwdChan, hss, ← hck]
    · simp [Registry.unsubHub, fwdChan, hs] at hck ⊢
      exact hck
  · intro s hId
    have hhk := hh s hId
    by_cases hs : s = sess
    · subst hs
      by_cases hHub : hId = hubId
      · subst hHub
        cases hss : r.sessions s <;>
          simp [Registry.unsubHub, fwdHub, hss]
      · cases hss : r.sessions s with
        | none => simp [fwdHub, hss] at hhk; simp [Registry.unsubHub, fwdHub, hss, hHub, ← hhk]
        | some p => simp [fwdHub, hss] at hhk; simp [Registry.unsubHub, fwdHub, hss, hHub, ← hhk]
    · by_cases hHub : hId = hubId
      · subst hHub
        simp [Registry.unsubHub, fwdHub, hs] at hhk ⊢
        simpa [hs] using hhk
      · simp [Registry.unsubHub, fwdHub, hs, hHub] at hhk ⊢
        exact hhk

theorem inv_unsubChan (r : Registry) (sess : Nat) (key : Key) (h : Inv r) :
    Inv (r.unsubChan sess key) := by
  obtain ⟨hc, hh⟩ := h
  constructor
  · intro s k
    have hck := hc s k
    by_cases hs : s = sess
    · subst hs
      by_cases hK : k = key
      · subst hK
        cases hss : r.sessions s <;>
          simp [Registry.unsubChan, fwdChan, hss]
      · cases hss : r.sessions s with
        | none => simp [fwdChan, hss] at hck; simp [Registry.unsubChan, fwdChan, hss, hK, ← hck]
        | some p => simp [fwdChan, hss] at hck; simp [Registry.unsubChan, fwdChan, hss, hK, ← hck]
    · by_cases hK : k = key
      · subst hK
        simp [Registry.unsubChan, fwdChan, hs] at hck ⊢
        simpa [hs] using hck
      · simp [Registry.unsubChan, fwdChan, hs, hK] at hck ⊢
        exact hck
  · intro s hId
    have hhk := hh s hId
    by_cases hs : s = sess
    · subst hs
      cases hss : r.sessions s with
      | none => simp [fwdHub, hss] at hhk; simp [Registry.unsubChan, fwdHub, hss, ← hhk]
      | some p => simp [fwdHub, hss] at hhk; simp [Registry.unsubChan, fwdHub, hss, ← hhk]
    · simp [Registry.unsubChan, fwdHub, hs] at hhk ⊢
      exact hhk

theorem inv_disconnect (r : Registry) (sess : Nat) (h : Inv r) :
    Inv (r.disconnect sess) := by
  obtain ⟨hc, hh⟩ := h
  cases hss : r.sessions sess with
  | none =>
    constructor
    · intro s k
      have hck := hc s k
      by_cases hs : s = sess
      · subst hs
        simp [fwdChan, hss] at hck
        simp [Registry.disconnect, fwdChan, hss, ← hck]
      · simp [Registry.disconnect, fwdChan, hss, hs] at hck ⊢
        exact hck
    · intro s hId
      have hhk := hh s hId
      by_cases hs : s = sess
      · subst hs
        simp [fwdHub, hss] at hhk
        simp [Registry.disconnect, fwdHub, hss, ← hhk]
      · simp [Registry.disconnect, fwdHub, hss, hs] at hhk ⊢
        exact hhk
  | some p =>
    constructor
    · intro s k
      have hck := hc s k
      by_cases hs : s = sess
      · subst hs
        simp [fwdChan, hss] at hck
        by_cases hpk : p.1 k = true
        · simp [Registry.disconnect, fwdChan, hss, hpk]
        · simp at hpk
          simp [Registry.disconnect, fwdChan, hss, hpk, ← hck]
      · by_cases hpk : p.1 k = true
        · simp [Registry.disconnect, fwdChan, hss, hs, hpk] at hck ⊢
          exact hck
        · simp at hpk
          simp [Registry.disconnect, fwdChan, hss, hs, hpk] at hck ⊢
          exact hck
    · intro s hId
      have hhk := hh s hId
      by_cases hs : s = sess
      · subst hs
        simp [fwdHub, hss] at hhk
        by_cases hph : p.2 hId = true
        · simp [Registry.disconnect, fwdHub, hss, hph]
        · simp at hph
          simp [Registry.disconnect, fwdHub, hss, hph, ← hhk]
      · by_cases hph : p.2 hId = true
        · simp [Registry.disconnect, fwdHub, hss, hs, hph] at hhk ⊢
          exact hhk
        · simp at hph
          simp [Registry.disconnect, fwdHub, hss, hs, hph] at hhk ⊢
          exact hhk

theorem disconnect_noRefs (r : Registry) (sess : Nat) (h : Inv r) :
    noRefs sess (r.disconnect sess) := by
  obtain ⟨hc, hh⟩ := h
  cases hss : r.sessions sess with
  | none =>
    refine ⟨by simp [Registry.disconnect, hss], ?_, ?_⟩
    · intro k
      have hck := hc sess k
      simp [fwdChan, hss] at hck
      simp [Registry.disconnect, hss, ← hck]
    · intro hId
      have hhk := hh sess hId
      simp [fwdHub, hss] at hhk
      simp [Registry.disconnect, hss, ← hhk]
  | some p =>
    refine ⟨by simp [Registry.disconnect, hss], ?_, ?_⟩
    · intro k
      have hck := hc sess k
      simp [fwdChan, hss] at hck
      by_cases hpk : p.1 k = true
      · simp [Registry.disconnect, hss, hpk]
      · simp at hpk
        simp [Registry.disconnect, hss, hpk, ← hck]
    · intro hId
      have hhk := hh sess hId
      simp [fwdHub, hss] at hhk
      by_cases hph : p.2 hId = true
      · simp [Registry.disconnect, hss, hph]
      · simp at hph
        simp [Registry.disconnect, hss, hph, ← hhk]

theorem inv_applyCmd (hubs : HubEnv) (r : Registry) (cmd : ClientCmd)
    (h : Inv r) : Inv (applyCmd hubs r cmd) := by
  cases cmd with
  | subscribeHub uid hubId sess =>
    simp only [applyCmd, AsyncServer.subscribe_hub]
    cases h1 : hubs hubId with
    | none => exact h
    | some hub =>
      dsimp only
      cases h2 : hub.members uid with
      | none => exact h
      | some mem => exact inv_subHub r sess hubId h
  | unsubscribeHub hubId sess => exact inv_unsubHub r sess hubId h
  | subscribeChannel uid hubId chanId sess =>
    simp only [applyCmd, AsyncServer.subscribe_channel]
    cases h1 : hubs hubId with
    | none => exact h
    | some hub =>
      dsimp only
      cases h2 : hub.members uid with
      | none => exact h
      | some mem =>
        dsimp only
        by_cases hperm : hasChannelPermission hub mem chanId .Read = true
        · rw [if_pos hperm]
          exact inv_subChan r sess (hubId, chanId) h
        · rw [if_neg hperm]
          exact h
  | unsubscribeChannel hubId chanId sess =>
    exact inv_unsubChan r sess (hubId, chanId) h
  | disconnect sess => exact inv_disconnect r sess h

theorem inv_applyCmds (hubs : HubEnv) (cmds : List ClientCmd) :
    ∀ r : Registry, Inv r → Inv (applyCmds hubs r cmds) := by
  induction cmds with
  | nil => intro r h; exact h
  | cons c rest ih =>
    intro r h
    exact ih (applyCmd hubs r c) (inv_applyCmd hubs r c h)

/-- C7: after any sequence of subscribe/unsubscribe/disconnect commands
applied from the empty registry through the server handlers, the
subscription registry is bidirectionally consistent (a forward channel
or hub edge exists iff the corresponding reverse edge does), and after
a final disconnect of session `sess` no entry in any of the three maps
references `sess`. -/
theorem C7_registry_consistent (hubs : HubEnv) (cmds : List ClientCmd)
    (sess : Nat) :
    Inv (applyCmds hubs Registry.init cmds) ∧
    noRefs sess (applyCmds hubs Registry.init (cmds ++ [.disconnect sess])) := by
  have hinv := inv_applyCmds hubs cmds Registry.init inv_init
  refine ⟨hinv, ?_⟩
  have hsplit : applyCmds hubs Registry.init (cmds ++ [.disconnect sess]) =
      (applyCmds hubs Registry.init cmds).disconnect sess := by
    simp [applyCmds, List.foldl_append, applyCmd]
  rw [hsplit]
  exact disconnect_noRefs _ sess hinv

/-! ## Claim C8: non-members are rejected with the distinct error -/

/-- C8 counterexample: the claim says every non-member command other
than joining — in particular typing — fails with the distinct
non-member error and mutates nothing. The sync `Server`'s `StopTyping`
arm (server.rs lines 521-531) loads no hub and checks no membership:
user 3, who is not a member of `hubW`, stop-types and the event is
fanned out to subscriber 9 with no error at all. -/
theorem C8_counterexample :
    hubW.members 3 = none ∧
    SyncServer.stop_typing regT 3 1 1 9 = some (.TypingStop 1 1 3) := by
  refine ⟨rfl, rfl⟩

/-- C8 (amended): a user who is not a member of the hub is rejected by
the async server's subscribe_hub, subscribe_channel, StartTyping,
StopTyping and SendMessage commands and by the HTTP search gate with
the code's distinct non-member error `Error::MemberNotFound` (the
spec's name for it is `NotAMember`), and nothing is mutated: the
registry is returned unchanged, no event is delivered and no message is
persisted. The sync server's `StopTyping` performs no membership check
and broadcasts even for non-members. -/
theorem C8_nonmember_rejected (hubs : HubEnv) (r : Registry)
    (uid hubId chanId sess : Nat) (hub : Hub) (assigned : Msg)
    (hhub : hubs hubId = some hub)
    (hmem : hub.members uid = none) :
    AsyncServer.subscribe_hub hubs r uid hubId sess =
      (r, .error .MemberNotFound) ∧
    AsyncServer.subscribe_channel hubs r uid hubId chanId sess =
      (r, .error .MemberNotFound) ∧
    AsyncServer.start_typing hubs r uid hubId chanId =
      (.error .MemberNotFound, noDelivery) ∧
    AsyncServer.stop_typing hubs r uid hubId chanId =
      (.error .MemberNotFound, noDelivery) ∧
    AsyncServer.send_message hubs r uid hubId chanId assigned =
      (.error .MemberNotFound, noDelivery, none) ∧
    search_messages_gate hubs uid hubId chanId = .error .MemberNotFound := by
  refine ⟨?_, ?_, ?_, ?_, ?_, ?_⟩ <;>
    simp [AsyncServer.subscribe_hub, AsyncServer.subscribe_channel,
      AsyncServer.start_typing, AsyncServer.stop_typing,
      AsyncServer.send_message, search_messages_gate, Hub.get_channel,
      hhub, hmem]

/-- Witness for C8_nonmember_rejected: user 3 is not a member of hub 1. -/
theorem C8_nonmember_rejected_witness :
    hubsW 1 = some hubW ∧
    hubW.members 3 = none ∧
    (AsyncServer.subscribe_hub hubsW Registry.init 3 1 9 =
        (Registry.init, .error .MemberNotFound) ∧
      AsyncServer.subscribe_channel hubsW Registry.init 3 1 1 9 =
        (Registry.init, .error .MemberNotFound) ∧
      AsyncServer.start_typing hubsW Registry.init 3 1 1 =
        (.error .MemberNotFound, noDelivery) ∧
      AsyncServer.stop_typing hubsW Registry.init 3 1 1 =
        (.error .MemberNotFound, noDelivery) ∧
      AsyncServer.send_message hubsW Registry.init 3 1 1 mA =
        (.error .MemberNotFound, noDelivery, none) ∧
      search_messages_gate hubsW 3 1 1 = .error .MemberNotFound) :=
  ⟨rfl, rfl,
    C8_nonmember_rejected hubsW Registry.init 3 1 1 9 hubW mA rfl rfl⟩

/-! ## Claim C9: typing requires channel Write -/

/-- C9 counterexample: the claim covers both servers' typing handlers,
but the sync `Server`'s `StopTyping` arm performs no hub load, no
membership check and no permission check: user 2 is a member of `hubW`
without channel `Write`, yet its stop-typing is fanned out to
subscriber 9 instead of failing with `MissingChannelPermission(Write)`. -/
theorem C9_counterexample :
    hubW.members 2 = some memNoW ∧
    hasChannelPermission hubW memNoW 1 .Write = false ∧
    SyncServer.stop_typing regT 2 1 1 9 = some (.TypingStop 1 1 2) := by
  refine ⟨rfl, by decide, rfl⟩

/-- C9 (amended): in the async server, `StartTyping` and `StopTyping`
succeed and fan the typing event out to the channel's subscribers
exactly when the member holds channel `Write`; a member lacking `Write`
gets `MissingChannelPermission(Write)` and no event is delivered. The
handlers never touch the registry or the store (typing persists
nothing). The sync server's `StopTyping` checks nothing and always
broadcasts. -/
theorem C9_typing_requires_write (hubs : HubEnv) (r : Registry)
    (uid hubId chanId : Nat) (hub : Hub) (mem : Member)
    (hhub : hubs hubId = some hub)
    (hmem : hub.members uid = some mem) :
    (hasChannelPermission hub mem chanId .Write = false →
      AsyncServer.start_typing hubs r uid hubId chanId =
        (.error (.MissingChannelPermission .Write), noDelivery) ∧
      AsyncServer.stop_typing hubs r uid hubId chanId =
        (.error (.MissingChannelPermission .Write), noDelivery)) ∧
    (hasChannelPermission hub mem chanId .Write = true →
      AsyncServer.start_typing hubs r uid hubId chanId =
        (.ok (), sendChannel r (hubId, chanId) (.TypingStart uid hubId chanId)) ∧
      AsyncServer.stop_typing hubs r uid hubId chanId =
        (.ok (), sendChannel r (hubId, chanId) (.TypingStop uid hubId chanId))) := by
  constructor
  · intro hperm
    constructor <;>
      simp [AsyncServer.start_typing, AsyncServer.stop_typing, hhub, hmem, hperm]
  · intro hperm
    constructor <;>
      simp [AsyncServer.start_typing, AsyncServer.stop_typing, hhub, hmem, hperm]

/-- Witness for C9_typing_requires_write: member 2 of hub 1 lacks
Write, so its typing commands fail and deliver nothing. -/
theorem C9_typing_requires_write_witness :
    hubsW 1 = some hubW ∧
    hubW.members 2 = some memNoW ∧
    hasChannelPermission hubW memNoW 1 .Write = false ∧
    (AsyncServer.start_typing hubsW regT 2 1 1 =
        (.error (.MissingChannelPermission .Write), noDelivery) ∧
      AsyncServer.stop_typing hubsW regT 2 1 1 =
        (.error (.MissingChannelPermission .Write), noDelivery)) :=
  ⟨rfl, rfl, by decide,
    (C9_typing_requires_write hubsW regT 2 1 1 hubW memNoW rfl rfl).1
      (by decide)⟩

end Wirc
